import Mathlib

/-!
Verification of the dosgato-templating rendering core and migration engine.

This development shallowly embeds the final revision of src/component.ts
(the revision containing the interfaces at lines 1231-1320, the Component and
Page classes at lines 1322-1482, the rendering helpers and renderPage at
lines 1484-1617, and the migration engine at lines 1619-1671).

Modelling conventions:
- JavaScript Date schema versions are totally ordered timestamps, modelled as Int.
- A thrown/rejected JavaScript error is modelled with Except JsError.
- The arbitrary extra fields of a serialized component are modelled as an
  association list of string key/value pairs (Props).
- Record/Map iteration order is insertion order in JS; both are modelled as
  association lists in order.
- The abstract user-supplied methods (fetch, setContext, render,
  renderVariation) of a template implementation are modelled as functions of
  the data that the method can observe through its arguments and through
  `this` (path, own data, fetched value, render context); they return
  Except JsError to model user code that may throw.
- JavaScript object identity of hydrated Component instances is modelled by a
  numeric node id (nid) assigned in construction order during hydration.
- The cooperative event loop runs each async traversal's structure
  deterministically up to interleaving of independent sibling subtrees, and no
  phase result depends on that interleaving (sibling subtrees touch disjoint
  state); the model therefore uses the canonical depth-first schedule and
  records invocations in a trace of events.
-/

/-- Arbitrary non-areas fields of a serialized component
(the `...arbitrary fields` of ComponentData), as an association list. -/
abbrev Props := List (String × String)

/-- ContextBase (component.ts:1309-1320): the render context handed down the
tree during the context phase, carrying the header-level counter; the initial
context also carries the original request headers (component.ts:1604).
User render contexts may extend this; the modelled fields suffice for the
claims under verification. -/
structure Ctx where
  headerLevel : Nat
  requestHeaders : List (String × String)
deriving DecidableEq, Repr

/-- A thrown JavaScript error: either an explicitly constructed Error or a
TypeError raised by the runtime (e.g. property access on undefined). -/
inductive JsError where
  | error (msg : String)
  | typeError (msg : String)
deriving DecidableEq, Repr

/-- Message carried by a JsError. -/
def JsError.msg : JsError → String
  | .error m => m
  | .typeError m => m

/-- Opaque payload produced by a fetch implementation. -/
abbrev Fetched := String

/-- ComponentData (component.ts:1236-1239): the serialized, persisted form of a
component. In this revision of the source the `areas` field is declared
required (`areas: Record<string, ComponentData[]>`, line 1238), so the typed
model makes it a total field; a separate runtime model below covers data in
which the field is absent. -/
inductive ComponentData : Type where
  | mk (templateKey : String) (props : Props) (areas : List (String × List ComponentData))

/-- Template key of a serialized component. -/
def ComponentData.templateKey : ComponentData → String
  | .mk k _ _ => k

/-- Extra fields of a serialized component. -/
def ComponentData.props : ComponentData → Props
  | .mk _ p _ => p

/-- Areas map of a serialized component. -/
def ComponentData.areas : ComponentData → List (String × List ComponentData)
  | .mk _ _ a => a

/-- PageData (component.ts:1241-1243): a ComponentData that additionally
carries savedAtVersion. Modelled as a flat structure; PageData.content is the
underlying ComponentData view used where the source passes the page object to
functions expecting a ComponentData. -/
structure PageData where
  templateKey : String
  savedAtVersion : Int
  props : Props
  areas : List (String × List ComponentData)

/-- ComponentData view of a PageData (structural upcast). -/
def PageData.content (p : PageData) : ComponentData :=
  .mk p.templateKey p.props p.areas

/-- PageRecord (component.ts:1245-1250). -/
structure PageRecord where
  id : String
  linkId : String
  path : String
  data : PageData

/-- PageWithAncestors (component.ts:1252-1254). -/
structure PageWithAncestors extends PageRecord where
  ancestors : List PageRecord

/-- Migration (component.ts:1299-1303): a timestamped pair of data transforms.
In this revision both up and down are declared required. The source allows the
transforms to be async; since they are awaited immediately they are modelled as
pure functions. -/
structure Migration where
  createdAt : Int
  up : ComponentData → ComponentData
  down : ComponentData → ComponentData

/-- MigrationWithTemplate (component.ts:1305-1307): a migration tagged with the
template key it was registered under (migratePage builds these at line 1657). -/
structure MigrationWithTemplate extends Migration where
  templateKey : String

/-- Template implementation: the user-overridable surface of a Component
subclass that the rendering pipeline invokes (component.ts:1350, 1367, 1375,
1389, 1403, 1411, 1449-1451). Each method is modelled as a function of the
node state it can observe; it may throw. cssUrls/jsUrls and the static
css/javascript blocks feed head-content assembly (component.ts:1588-1613). -/
structure Impl where
  fetch : PageWithAncestors → String → Props → Bool → Except JsError Fetched
  setContext : String → Props → Option Fetched → Option Ctx → Bool → Except JsError Ctx
  render : String → Props → Option Fetched → Option Ctx → String → List (String × List String) → Bool → Except JsError String
  renderVariation : String → Props → Option Fetched → String → List (String × String) → Except JsError String
  cssUrls : List String := []
  jsUrls : List String := []
  css : String := ""
  javascript : String := ""

/-- A registered template class as seen by the migration engine: its static
templateKey and migrations array (registry.ts: templateRegistry.all holds the
template classes; component.ts:1449 declares static migrations). -/
structure TemplateEntry where
  templateKey : String
  migrations : List Migration

/-- The template registry (registry.ts:21-27): page constructors by key,
component constructors by key, and the list of all registered templates. The
constructor maps are modelled as association lists from template key to Impl. -/
structure Registry where
  pages : List (String × Impl)
  components : List (String × Impl)
  all : List TemplateEntry

mutual
/-- collectTemplates (component.ts:1498-1506): flat list of template keys in
use anywhere in a serialized tree, own key first then all areas in order. -/
def collectTemplates : ComponentData → List String
  | .mk k _ a => k :: collectTemplatesAreas a
def collectTemplatesAreas : List (String × List ComponentData) → List String
  | [] => []
  | (_, l) :: rest => collectTemplatesList l ++ collectTemplatesAreas rest
def collectTemplatesList : List ComponentData → List String
  | [] => []
  | c :: cs => collectTemplates c ++ collectTemplatesList cs
end

/-- Stable insertion of x into a sorted list: x goes in front of the first
element y with le x y, so equal keys keep their original relative order. -/
def orderedInsertBy {α : Type} (le : α → α → Bool) (x : α) : List α → List α
  | [] => [x]
  | y :: ys => if le x y then x :: y :: ys else y :: orderedInsertBy le x ys

/-- Stable insertion sort used to model the txstate-utils sortby call. -/
def insertionSortBy {α : Type} (le : α → α → Bool) : List α → List α
  | [] => []
  | x :: xs => orderedInsertBy le x (insertionSortBy le xs)

/-- sortby(migrations, createdAt, backward) (component.ts:1666): a stable sort
of the migrations by createdAt, ascending normally and descending when the
third argument is true. -/
def sortby (l : List MigrationWithTemplate) (desc : Bool) : List MigrationWithTemplate :=
  insertionSortBy (fun a b => decide (if desc then b.createdAt ≤ a.createdAt else a.createdAt ≤ b.createdAt)) l

theorem mem_orderedInsertBy {α : Type} (le : α → α → Bool) (x y : α) (l : List α) :
    y ∈ orderedInsertBy le x l ↔ y = x ∨ y ∈ l := by
  induction l with
  | nil => simp [orderedInsertBy]
  | cons z zs ih =>
    simp only [orderedInsertBy]
    by_cases h : le x z = true
    · simp [h]
    · simp only [if_neg h, List.mem_cons, ih]
      tauto

theorem mem_insertionSortBy {α : Type} (le : α → α → Bool) (y : α) (l : List α) :
    y ∈ insertionSortBy le l ↔ y ∈ l := by
  induction l with
  | nil => simp [insertionSortBy]
  | cons x xs ih => simp [insertionSortBy, mem_orderedInsertBy, ih]

/-- processMigration (component.ts:1621-1635). The source declares
`const newAreas: Record<string, Promise<ComponentData>[]> = {}` and then, for
every child in every area, executes `newAreas[areaKey].push(...)` without ever
initializing `newAreas[areaKey]`. Evaluation order in JS resolves the callee
`newAreas[areaKey].push` before the recursive call in the argument list, so the
first child of the first non-empty area raises
TypeError: Cannot read properties of undefined (reading 'push'),
and the recursive calls never run. If every area list is empty but the areas
object has at least one key, the second loop executes
`await Promise.all(newAreas[areaKey])` with newAreas[areaKey] undefined, which
raises a TypeError because undefined is not iterable. Only a component whose
areas object is empty reaches the `migrate(component)` call at line 1633. -/
def processMigration (migration : MigrationWithTemplate) (backward : Bool) (component : ComponentData) : Except JsError ComponentData :=
  let migrate := if backward then migration.down else migration.up
  if component.areas.any (fun a => !a.2.isEmpty) then
    .error (.typeError "Cannot read properties of undefined (reading 'push')")
  else if !component.areas.isEmpty then
    .error (.typeError "undefined is not iterable")
  else if migration.templateKey == component.templateKey then
    .ok (migrate component)
  else
    .ok component

/-- Migration selection of migratePage (component.ts:1649-1661): all
migrations of registered templates whose key is in use on the page, filtered
to the half-open-free strict time window determined by direction. -/
def migrationsInWindow (reg : Registry) (templateKeysInUse : List String) (fromV toV : Int) (backward : Bool) : List MigrationWithTemplate :=
  ((reg.all.filter (fun t => templateKeysInUse.contains t.templateKey)).flatMap
      (fun t => t.migrations.map (fun m => { toMigration := m, templateKey := t.templateKey : MigrationWithTemplate }))).filter
    (fun m => if backward then decide (m.createdAt < fromV) && decide (m.createdAt > toV)
              else decide (m.createdAt > fromV) && decide (m.createdAt < toV))

/-- Sorted migration list of migratePage (component.ts:1649-1666): the
in-window, in-use migrations sorted by createdAt, ascending for forward
migration and descending for backward migration. migratePage applies exactly
the members of this list, in list order. -/
def sortedMigrations (reg : Registry) (page : PageData) (toSchemaVersion : Int) : List MigrationWithTemplate :=
  let templateKeysInUse := collectTemplates page.content
  let backward := decide (page.savedAtVersion > toSchemaVersion)
  sortby (migrationsInWindow reg templateKeysInUse page.savedAtVersion toSchemaVersion backward) backward

/-- migratePage (component.ts:1648-1671): applies each selected migration in
sorted order to the whole serialized tree via processMigration, then stamps
savedAtVersion with the target version. The migration functions see the root
as a ComponentData (its savedAtVersion field is overwritten afterwards at line
1669, so their view of it is immaterial). A thrown error from processMigration
rejects the whole call. -/
def migratePage (reg : Registry) (page : PageData) (toSchemaVersion : Int) : Except JsError PageData := do
  let backward := decide (page.savedAtVersion > toSchemaVersion)
  let root ← (sortedMigrations reg page toSchemaVersion).foldlM
      (fun acc m => processMigration m backward acc) page.content
  return { templateKey := root.templateKey, savedAtVersion := toSchemaVersion,
           props := root.props, areas := root.areas }

/-- Hydrated live Component node (component.ts:1322-1338). Fields mirror the
live object: nid models JavaScript object identity (assigned in construction
order, depth-first, which is the order in which the recursive constructor
allocates objects); impl is the template implementation looked up at
hydration; fetched and renderCtx start unassigned (undefined) and are filled
by the phases; hadError starts false. The parent and page back-references are
represented by the tree structure itself (a node's subtree contains its
descendants; the root of a hydrated page is the Page). -/
inductive HComponent : Type where
  | mk (nid : Nat) (templateKey : String) (impl : Impl) (props : Props) (path : String)
       (hadError : Bool) (fetched : Option Fetched) (renderCtx : Option Ctx)
       (areas : List (String × List HComponent))

/-- Node id (models object identity). -/
def HComponent.nid : HComponent → Nat
  | .mk n _ _ _ _ _ _ _ _ => n

/-- Template key of a hydrated node. -/
def HComponent.templateKey : HComponent → String
  | .mk _ k _ _ _ _ _ _ _ => k

/-- Implementation of a hydrated node. -/
def HComponent.impl : HComponent → Impl
  | .mk _ _ i _ _ _ _ _ _ => i

/-- Own data (minus areas) of a hydrated node. -/
def HComponent.props : HComponent → Props
  | .mk _ _ _ p _ _ _ _ _ => p

/-- Path of a hydrated node. -/
def HComponent.path : HComponent → String
  | .mk _ _ _ _ p _ _ _ _ => p

/-- hadError flag of a hydrated node. -/
def HComponent.hadError : HComponent → Bool
  | .mk _ _ _ _ _ h _ _ _ => h

/-- Phase-1 output stored on a hydrated node (none = undefined). -/
def HComponent.fetched : HComponent → Option Fetched
  | .mk _ _ _ _ _ _ f _ _ => f

/-- Phase-2 output stored on a hydrated node (none = undefined). -/
def HComponent.renderCtx : HComponent → Option Ctx
  | .mk _ _ _ _ _ _ _ c _ => c

/-- Hydrated areas map of a node. -/
def HComponent.areas : HComponent → List (String × List HComponent)
  | .mk _ _ _ _ _ _ _ _ a => a

/-- Children of a node across all areas, in area order
(Array.from(component.areas.values()).flat(), component.ts:1511). -/
def HComponent.children (c : HComponent) : List HComponent :=
  (c.areas.map Prod.snd).flatten

/-- One observable invocation or error report during hydration or rendering.
setContextCall records the argument the node's setContext received; logged n m
records that logError was invoked on node n with an error whose message is m
(component.ts:1440-1443). -/
inductive Event where
  | fetchCall (nid : Nat)
  | setContextCall (nid : Nat) (arg : Option Ctx)
  | renderCall (nid : Nat)
  | renderVariationCall (nid : Nat)
  | logged (nid : Nat) (msg : String)
deriving DecidableEq, Repr

/-- Node id an event refers to. -/
def Event.nid : Event → Nat
  | .fetchCall n => n
  | .setContextCall n _ => n
  | .renderCall n => n
  | .renderVariationCall n => n
  | .logged n _ => n

/-- Error message logged when a child's template key has no registered
component implementation (component.ts:1427). -/
def missingChildMsg (templateKey : String) : String :=
  "Template " ++ templateKey ++ " is in the page data but no template code has been registered for it."

mutual
/-- Component constructor (component.ts:1417-1438) given the already-resolved
implementation for this node. Children are hydrated area by area in order;
a child whose template key has no registered component implementation is
omitted and this.logError is invoked on the node under construction (the
parent), recorded as a logged event with the parent's nid. Note the source
sets this.hadError = false at line 1433 after the areas loop, so even a node
that logged a missing-child error ends construction with hadError false.
Returns the node, the next fresh nid, and the events in program order. -/
def hydrateComponent (reg : Registry) (impl : Impl) (nid : Nat) (data : ComponentData) (path : String) : HComponent × Nat × List Event :=
  match data with
  | .mk tk props areas =>
    let r := hydrateAreas reg nid (nid + 1) path areas
    (.mk nid tk impl props path false none none r.1, r.2.1, r.2.2)

/-- Hydration of the areas map of the node with id selfNid (the for-of loop
over Object.keys(areas) at component.ts:1420-1430). -/
def hydrateAreas (reg : Registry) (selfNid counter : Nat) (path : String) : List (String × List ComponentData) → List (String × List HComponent) × Nat × List Event
  | [] => ([], counter, [])
  | (key, l) :: rest =>
    let r1 := hydrateList reg selfNid counter path key 0 l
    let r2 := hydrateAreas reg selfNid r1.2.1 path rest
    ((key, r1.1) :: r2.1, r2.2.1, r1.2.2 ++ r2.2.2)

/-- Hydration of one area's component list, i being the index of the first
element of the remaining list in the original area list (the indexed for loop
at component.ts:1423-1428); omitted children still consume their index. -/
def hydrateList (reg : Registry) (selfNid counter : Nat) (path key : String) (i : Nat) : List ComponentData → List HComponent × Nat × List Event
  | [] => ([], counter, [])
  | cd :: rest =>
    match reg.components.lookup cd.templateKey with
    | some impl =>
      let r1 := hydrateComponent reg impl counter cd (path ++ "/" ++ key ++ "/" ++ toString i)
      let r2 := hydrateList reg selfNid r1.2.1 path key (i + 1) rest
      (r1.1 :: r2.1, r2.2.1, r1.2.2 ++ r2.2.2)
    | none =>
      let r2 := hydrateList reg selfNid counter path key (i + 1) rest
      (r2.1, r2.2.1, Event.logged selfNid (missingChildMsg cd.templateKey) :: r2.2.2)
end

/-- Error thrown by hydratePage when the page registry has no implementation
for the root template key (component.ts:1570). -/
def missingTemplateError : JsError :=
  .error "Unable to render page. Missing template implementation."

/-- hydratePage (component.ts:1567-1574): look up the page implementation for
the root template key; throw the missing-template error if absent, otherwise
construct the Page (the Page constructor at component.ts:1478-1481 invokes the
Component constructor on page.data with path '/' and no parent). The
construction-invariant check at lines 1434-1437 walks parent links to a Page;
starting from a Page root every constructed node reaches it, so that error
cannot arise here. -/
def hydratePage (reg : Registry) (page : PageWithAncestors) : Except JsError (HComponent × Nat × List Event) :=
  match reg.pages.lookup page.data.templateKey with
  | none => .error missingTemplateError
  | some impl => .ok (hydrateComponent reg impl 0 page.data.content "/")

mutual
/-- Fetch phase for one node (the Promise.all callback at component.ts:1592-1598
applied over the flat pre-order component list): invoke fetch with the page
record; on success store the value in fetched, on a thrown error invoke
logError (hadError := true, logged event) and leave fetched undefined.
Sibling fetches are unordered in the source; each node's outcome depends only
on its own call, so the canonical depth-first order is used for the trace. -/
def fetchComponent (pg : PageWithAncestors) (em : Bool) : HComponent → HComponent × List Event
  | .mk n tk impl props path he f ctx areas =>
    let r := fetchAreas pg em areas
    match impl.fetch pg path props em with
    | .ok v => (.mk n tk impl props path he (some v) ctx r.1, Event.fetchCall n :: r.2)
    | .error e => (.mk n tk impl props path true f ctx r.1, Event.fetchCall n :: Event.logged n e.msg :: r.2)

/-- Fetch phase over an areas map. -/
def fetchAreas (pg : PageWithAncestors) (em : Bool) : List (String × List HComponent) → List (String × List HComponent) × List Event
  | [] => ([], [])
  | (k, l) :: rest =>
    let r1 := fetchList pg em l
    let r2 := fetchAreas pg em rest
    ((k, r1.1) :: r2.1, r1.2 ++ r2.2)

/-- Fetch phase over one area's component list. -/
def fetchList (pg : PageWithAncestors) (em : Bool) : List HComponent → List HComponent × List Event
  | [] => ([], [])
  | c :: cs =>
    let r1 := fetchComponent pg em c
    let r2 := fetchList pg em cs
    (r1.1 :: r2.1, r1.2 ++ r2.2)
end

mutual
/-- Context phase body for one child c of a node whose current renderCtx is
parentCtx (the Promise.all callback of setContextFn, component.ts:1512-1519):
if c.hadError, c's setContext is not invoked and c.renderCtx is untouched;
otherwise c.setContext(parentCtx, editMode) is awaited, its resolved value
stored in c.renderCtx, and a thrown error captured via c.logError. In either
case the recursion then descends into c's children with c's (possibly just
assigned, possibly still undefined) renderCtx. -/
def setContextChild (em : Bool) (parentCtx : Option Ctx) : HComponent → HComponent × List Event
  | .mk n tk impl props path he f ctx areas =>
    if he then
      let r := setContextAreas em ctx areas
      (.mk n tk impl props path he f ctx r.1, r.2)
    else
      match impl.setContext path props f parentCtx em with
      | .ok v =>
        let r := setContextAreas em (some v) areas
        (.mk n tk impl props path he f (some v) r.1, Event.setContextCall n parentCtx :: r.2)
      | .error e =>
        let r := setContextAreas em ctx areas
        (.mk n tk impl props path true f ctx r.1, Event.setContextCall n parentCtx :: Event.logged n e.msg :: r.2)

/-- Context phase over an areas map, parentCtx being the renderCtx of the
node owning the areas. -/
def setContextAreas (em : Bool) (parentCtx : Option Ctx) : List (String × List HComponent) → List (String × List HComponent) × List Event
  | [] => ([], [])
  | (k, l) :: rest =>
    let r1 := setContextList em parentCtx l
    let r2 := setContextAreas em parentCtx rest
    ((k, r1.1) :: r2.1, r1.2 ++ r2.2)

/-- Context phase over one area's component list. -/
def setContextList (em : Bool) (parentCtx : Option Ctx) : List HComponent → List HComponent × List Event
  | [] => ([], [])
  | c :: cs =>
    let r1 := setContextChild em parentCtx c
    let r2 := setContextList em parentCtx cs
    (r1.1 :: r2.1, r1.2 ++ r2.2)
end

/-- executeSetContext (component.ts:1509-1522) applied to a node: processes
all children in all areas (flattened) with the node's own renderCtx as their
inbound parent context; the node itself is not invoked here (the root's own
setContext happens in renderPage at line 1604). -/
def setContextFn (em : Bool) (c : HComponent) : HComponent × List Event :=
  match c with
  | .mk n tk impl props path he f ctx areas =>
    let r := setContextAreas em ctx areas
    (.mk n tk impl props path he f ctx r.1, r.2)

mutual
/-- Render phase for one node (renderComponent, component.ts:1525-1541): a node
with hadError contributes the empty string and neither it nor its subtree is
asked to render; otherwise each area's children render first (bottom-up) and
the node's render is invoked with the rendered areas, a thrown error being
captured via logError and replaced by the empty string. hc is the headContent
string assembled before the render phase, readable by implementations through
this.page.headContent. -/
def renderComponent (em : Bool) (hc : String) : HComponent → String × List Event
  | .mk n _ impl props path he f ctx areas =>
    if he then ("", [])
    else
      let r := renderAreas em hc areas
      match impl.render path props f ctx hc r.1 em with
      | .ok s => (s, r.2 ++ [Event.renderCall n])
      | .error e => ("", r.2 ++ [Event.renderCall n, Event.logged n e.msg])

/-- Render phase over an areas map, producing the renderedAreas argument. -/
def renderAreas (em : Bool) (hc : String) : List (String × List HComponent) → List (String × List String) × List Event
  | [] => ([], [])
  | (k, l) :: rest =>
    let r1 := renderList em hc l
    let r2 := renderAreas em hc rest
    ((k, r1.1) :: r2.1, r1.2 ++ r2.2)

/-- Render phase over one area's component list. -/
def renderList (em : Bool) (hc : String) : List HComponent → List String × List Event
  | [] => ([], [])
  | c :: cs =>
    let r1 := renderComponent em hc c
    let r2 := renderList em hc cs
    (r1.1 :: r2.1, r1.2 ++ r2.2)
end

mutual
/-- Variation render for one node (renderVariation, component.ts:1544-1560): a
node with hadError contributes the empty string without being asked to render
(its subtree is skipped); otherwise each area's children render first, each
area's outputs are joined into one string, and renderVariation is invoked with
the joined areas, a thrown error being captured via logError and replaced by
the empty string. -/
def renderVariation (ext : String) : HComponent → String × List Event
  | .mk n _ impl props path he f _ areas =>
    if he then ("", [])
    else
      let r := renderVariationAreas ext areas
      match impl.renderVariation path props f ext r.1 with
      | .ok s => (s, r.2 ++ [Event.renderVariationCall n])
      | .error e => ("", r.2 ++ [Event.renderVariationCall n, Event.logged n e.msg])

/-- Variation render over an areas map, joining each area's outputs. -/
def renderVariationAreas (ext : String) : List (String × List HComponent) → List (String × String) × List Event
  | [] => ([], [])
  | (k, l) :: rest =>
    let r1 := renderVariationList ext l
    let r2 := renderVariationAreas ext rest
    ((k, String.join r1.1) :: r2.1, r1.2 ++ r2.2)

/-- Variation render over one area's component list. -/
def renderVariationList (ext : String) : List HComponent → List String × List Event
  | [] => ([], [])
  | c :: cs =>
    let r1 := renderVariation ext c
    let r2 := renderVariationList ext cs
    (r1.1 :: r2.1, r1.2 ++ r2.2)
end

mutual
/-- collectComponents (component.ts:1486-1494): flat pre-order list of the
hydrated nodes. -/
def collectComponents : HComponent → List HComponent
  | .mk n tk impl props path he f ctx areas =>
    HComponent.mk n tk impl props path he f ctx areas :: collectComponentsAreas areas

/-- collectComponents over an areas map. -/
def collectComponentsAreas : List (String × List HComponent) → List HComponent
  | [] => []
  | (_, l) :: rest => collectComponentsList l ++ collectComponentsAreas rest

/-- collectComponents over one area's component list. -/
def collectComponentsList : List HComponent → List HComponent
  | [] => []
  | c :: cs => collectComponents c ++ collectComponentsList cs
end

/-- editModeIncludes (component.ts:1673-1675): currently the empty string. -/
def editModeIncludes : String := ""

/-- Head-content assembly (component.ts:1588-1589 and 1607-1613): deduplicated
script and stylesheet references for every hydrated node, plus per-template
resource links for templates with static javascript/css blocks. -/
def headContent (em : Bool) (comps : List HComponent) : String :=
  let cssComponents := ((comps.filter (fun c => c.impl.css != "")).map (fun c => c.templateKey)).eraseDups
  let jsComponents := ((comps.filter (fun c => c.impl.javascript != "")).map (fun c => c.templateKey)).eraseDups
  (if em then editModeIncludes else "") ++ String.intercalate "\n" (
    ((comps.flatMap (fun c => c.impl.jsUrls)).eraseDups.map
        (fun url => "<script src=\"" ++ url ++ "\"></script>"))
    ++ ((comps.flatMap (fun c => c.impl.cssUrls)).eraseDups.map
        (fun url => "<link rel=\"stylesheet\" href=\"" ++ url ++ "\">"))
    ++ (jsComponents.map (fun tk => "<script src=\"/.resources/" ++ tk ++ ".js\"></script>"))
    ++ (cssComponents.map (fun tk => "<link rel=\"stylesheet\" href=\"/.resources/" ++ tk ++ ".css\">")))

/-- The renderPage pipeline (component.ts:1584-1617) hydrates (throwing the
missing-template error when the root implementation is absent), runs the fetch
phase, then: for a non-empty extension other than html, returns the variation
render of the fetched tree; otherwise runs the context phase, whose first
step, the root's own setContext at line 1604, is NOT inside any try/catch, so
an error it throws propagates out of renderPage; then assembles headContent
and returns the render phase's output. withRootCtx models the assignment
pageComponent.renderCtx = v at line 1604. -/
def withRootCtx (c : HComponent) (v : Ctx) : HComponent :=
  match c with
  | .mk n tk impl props path he f _ areas => .mk n tk impl props path he f (some v) areas

/-- renderPage (component.ts:1584-1617) instrumented with the event trace, as
described above. -/
def renderPageT (reg : Registry) (requestHeaders : List (String × String)) (page : PageWithAncestors) (extension : String) (editMode : Bool) : Except JsError String × List Event :=
  match reg.pages.lookup page.data.templateKey with
  | none => (.error missingTemplateError, [])
  | some impl0 =>
    let h := hydrateComponent reg impl0 0 page.data.content "/"
    let f := fetchComponent page editMode h.1
    if extension != "" && extension != "html" then
      let v := renderVariation extension f.1
      (.ok v.1, h.2.2 ++ f.2 ++ v.2)
    else
      let F := f.1
      let initCtx : Ctx := { headerLevel := 1, requestHeaders := requestHeaders }
      match F.impl.setContext F.path F.props F.fetched (some initCtx) editMode with
      | .error e => (.error e, h.2.2 ++ f.2 ++ [Event.setContextCall F.nid (some initCtx)])
      | .ok v =>
        let r := setContextFn editMode (withRootCtx F v)
        let hcStr := headContent editMode (collectComponents h.1)
        let out := renderComponent editMode hcStr r.1
        (.ok out.1, h.2.2 ++ f.2 ++ (Event.setContextCall F.nid (some initCtx) :: r.2) ++ out.2)

/-- renderPage's result (the returned HTML or variation string, or the thrown
error). -/
def renderPage (reg : Registry) (requestHeaders : List (String × String)) (page : PageWithAncestors) (extension : String) (editMode : Bool) : Except JsError String :=
  (renderPageT reg requestHeaders page extension editMode).1

/-- Shallow view of one hydrated node: every own field of the live object
(impl, a function value, is identified by the node's templateKey under which
it was looked up; children appear only as ids so that a view is local to one
node). Used to state which nodes an operation touches. -/
structure NodeView where
  nid : Nat
  templateKey : String
  path : String
  props : Props
  hadError : Bool
  fetched : Option Fetched
  renderCtx : Option Ctx
  areaNids : List (String × List Nat)
deriving DecidableEq, Repr

/-- Shallow view of a node. -/
def HComponent.view : HComponent → NodeView
  | .mk n tk _ props path he f ctx areas =>
    ⟨n, tk, path, props, he, f, ctx, areas.map (fun a => (a.1, a.2.map HComponent.nid))⟩

mutual
/-- Flat pre-order list of node ids of a hydrated tree. -/
def nidsOf : HComponent → List Nat
  | .mk n _ _ _ _ _ _ _ areas => n :: nidsOfAreas areas
/-- Node ids over an areas map. -/
def nidsOfAreas : List (String × List HComponent) → List Nat
  | [] => []
  | (_, l) :: rest => nidsOfList l ++ nidsOfAreas rest
/-- Node ids over one area's component list. -/
def nidsOfList : List HComponent → List Nat
  | [] => []
  | c :: cs => nidsOf c ++ nidsOfList cs
end

mutual
/-- Flat pre-order list of shallow views of a hydrated tree. -/
def views : HComponent → List NodeView
  | .mk n tk impl props path he f ctx areas =>
    (HComponent.mk n tk impl props path he f ctx areas).view :: viewsAreas areas
/-- Views over an areas map. -/
def viewsAreas : List (String × List HComponent) → List NodeView
  | [] => []
  | (_, l) :: rest => viewsList l ++ viewsAreas rest
/-- Views over one area's component list. -/
def viewsList : List HComponent → List NodeView
  | [] => []
  | c :: cs => views c ++ viewsList cs
end

mutual
theorem views_map_nid : ∀ c : HComponent, (views c).map NodeView.nid = nidsOf c
  | .mk n tk impl props path he f ctx areas => by
    have h := viewsAreas_map_nid areas
    simp [views, nidsOf, HComponent.view, h]
theorem viewsAreas_map_nid : ∀ a : List (String × List HComponent), (viewsAreas a).map NodeView.nid = nidsOfAreas a
  | [] => by simp [viewsAreas, nidsOfAreas]
  | (k, l) :: rest => by
    have h1 := viewsList_map_nid l
    have h2 := viewsAreas_map_nid rest
    simp [viewsAreas, nidsOfAreas, h1, h2]
theorem viewsList_map_nid : ∀ l : List HComponent, (viewsList l).map NodeView.nid = nidsOfList l
  | [] => by simp [viewsList, nidsOfList]
  | c :: cs => by
    have h1 := views_map_nid c
    have h2 := viewsList_map_nid cs
    simp [viewsList, nidsOfList, h1, h2]
end

mutual
theorem hydrateComponent_nids (reg : Registry) (impl : Impl) (nid : Nat) (data : ComponentData) (path : String) :
    (hydrateComponent reg impl nid data path).1.nid = nid ∧
    nid < (hydrateComponent reg impl nid data path).2.1 ∧
    (∀ m ∈ nidsOf (hydrateComponent reg impl nid data path).1, nid ≤ m ∧ m < (hydrateComponent reg impl nid data path).2.1) ∧
    (nidsOf (hydrateComponent reg impl nid data path).1).Nodup := by
  match data with
  | .mk tk props areas =>
    have h := hydrateAreas_nids reg nid (nid + 1) path areas
    refine ⟨by simp [hydrateComponent, HComponent.nid], ?_, ?_, ?_⟩
    · simp only [hydrateComponent]
      omega
    · intro m hm
      simp only [hydrateComponent, nidsOf, List.mem_cons] at hm
      rcases hm with rfl | hm
      · exact ⟨le_refl _, by simpa [hydrateComponent] using h.1⟩
      · have := h.2.1 m hm
        constructor
        · omega
        · simpa [hydrateComponent] using this.2
    · simp only [hydrateComponent, nidsOf]
      refine List.Nodup.cons ?_ h.2.2
      intro hmem
      have := h.2.1 nid hmem
      omega

theorem hydrateAreas_nids (reg : Registry) (selfNid counter : Nat) (path : String) (areas : List (String × List ComponentData)) :
    counter ≤ (hydrateAreas reg selfNid counter path areas).2.1 ∧
    (∀ m ∈ nidsOfAreas (hydrateAreas reg selfNid counter path areas).1, counter ≤ m ∧ m < (hydrateAreas reg selfNid counter path areas).2.1) ∧
    (nidsOfAreas (hydrateAreas reg selfNid counter path areas).1).Nodup := by
  match areas with
  | [] => simp [hydrateAreas, nidsOfAreas]
  | (key, l) :: rest =>
    have h1 := hydrateList_nids reg selfNid counter path key 0 l
    have h2 := hydrateAreas_nids reg selfNid (hydrateList reg selfNid counter path key 0 l).2.1 path rest
    refine ⟨?_, ?_, ?_⟩
    · simp only [hydrateAreas]
      have := h1.1
      have := h2.1
      omega
    · intro m hm
      simp only [hydrateAreas, nidsOfAreas, List.mem_append] at hm
      rcases hm with hm | hm
      · have := h1.2.1 m hm
        have := h2.1
        simp only [hydrateAreas]
        omega
      · have := h2.2.1 m hm
        have := h1.1
        simp only [hydrateAreas]
        omega
    · simp only [hydrateAreas, nidsOfAreas]
      refine List.Nodup.append h1.2.2 h2.2.2 ?_
      intro m hm1 hm2
      have a1 := h1.2.1 m hm1
      have a2 := h2.2.1 m hm2
      omega

theorem hydrateList_nids (reg : Registry) (selfNid counter : Nat) (path key : String) (i : Nat) (l : List ComponentData) :
    counter ≤ (hydrateList reg selfNid counter path key i l).2.1 ∧
    (∀ m ∈ nidsOfList (hydrateList reg selfNid counter path key i l).1, counter ≤ m ∧ m < (hydrateList reg selfNid counter path key i l).2.1) ∧
    (nidsOfList (hydrateList reg selfNid counter path key i l).1).Nodup := by
  match l with
  | [] => simp [hydrateList, nidsOfList]
  | cd :: rest =>
    match hlook : reg.components.lookup cd.templateKey with
    | some impl =>
      have h1 := hydrateComponent_nids reg impl counter cd (path ++ "/" ++ key ++ "/" ++ toString i)
      have h2 := hydrateList_nids reg selfNid (hydrateComponent reg impl counter cd (path ++ "/" ++ key ++ "/" ++ toString i)).2.1 path key (i + 1) rest
      refine ⟨?_, ?_, ?_⟩
      · simp only [hydrateList, hlook]
        have := h1.2.1
        have := h2.1
        omega
      · intro m hm
        simp only [hydrateList, hlook, nidsOfList, List.mem_cons, List.mem_append] at hm
        rcases hm with hm | hm
        · have := h1.2.2.1 m hm
          have := h2.1
          simp only [hydrateList, hlook]
          omega
        · have := h2.2.1 m hm
          have := h1.2.1
          simp only [hydrateList, hlook]
          omega
      · simp only [hydrateList, hlook, nidsOfList]
        refine List.Nodup.append h1.2.2.2 h2.2.2 ?_
        intro m hm1 hm2
        have a1 := h1.2.2.1 m hm1
        have a2 := h2.2.1 m hm2
        omega
    | none =>
      have h2 := hydrateList_nids reg selfNid counter path key (i + 1) rest
      refine ⟨?_, ?_, ?_⟩
      · simp only [hydrateList, hlook]
        exact h2.1
      · intro m hm
        simp only [hydrateList, hlook, nidsOfList] at hm
        have := h2.2.1 m hm
        simp only [hydrateList, hlook]
        omega
      · simp only [hydrateList, hlook, nidsOfList]
        exact h2.2.2
end

/-- Hydration assigns globally distinct node ids. -/
theorem hydrate_nids_nodup (reg : Registry) (impl : Impl) (nid : Nat) (data : ComponentData) (path : String) :
    (nidsOf (hydrateComponent reg impl nid data path).1).Nodup :=
  (hydrateComponent_nids reg impl nid data path).2.2.2


theorem mem_migrationsInWindow (reg : Registry) (keys : List String) (fromV toV : Int) (backward : Bool) (m : MigrationWithTemplate) :
    m ∈ migrationsInWindow reg keys fromV toV backward ↔
      ((keys.contains m.templateKey = true ∧
        ∃ t ∈ reg.all, t.templateKey = m.templateKey ∧ m.toMigration ∈ t.migrations) ∧
       (if backward then m.createdAt < fromV ∧ m.createdAt > toV
        else m.createdAt > fromV ∧ m.createdAt < toV)) := by
  simp only [migrationsInWindow, List.mem_filter, List.mem_flatMap, List.mem_map, List.mem_filter]
  constructor
  · rintro ⟨⟨t, ⟨⟨ht, hkey⟩, m0, hm0, rfl⟩⟩, hw⟩
    refine ⟨⟨hkey, t, ht, rfl, hm0⟩, ?_⟩
    cases backward <;> simp_all
  · rintro ⟨⟨hkey, t, ht, hk, hm0⟩, hw⟩
    refine ⟨⟨t, ⟨⟨ht, by rw [hk]; exact hkey⟩, m.toMigration, hm0, by cases m; simp [hk]⟩⟩, ?_⟩
    cases backward <;> simp_all

/-- C3: migratePage selects exactly the registered migrations whose template
key occurs somewhere in the serialized tree and whose createdAt lies strictly
inside the version window (fromVersion < createdAt < toVersion going forward,
toVersion < createdAt < fromVersion going backward); a migration whose
createdAt equals either endpoint is never selected, and a migration for a
template key used by no node in the tree is never selected. migratePage
applies exactly the members of sortedMigrations, in order
(component.ts:1648-1671). -/
theorem claimC3_selection (reg : Registry) (page : PageData) (toV : Int) (m : MigrationWithTemplate) :
    (m ∈ sortedMigrations reg page toV ↔
      ((collectTemplates page.content).contains m.templateKey = true ∧
       (∃ t ∈ reg.all, t.templateKey = m.templateKey ∧ m.toMigration ∈ t.migrations) ∧
       (if page.savedAtVersion > toV
        then toV < m.createdAt ∧ m.createdAt < page.savedAtVersion
        else page.savedAtVersion < m.createdAt ∧ m.createdAt < toV))) ∧
    ((m.createdAt = page.savedAtVersion ∨ m.createdAt = toV) → m ∉ sortedMigrations reg page toV) ∧
    ((collectTemplates page.content).contains m.templateKey = false → m ∉ sortedMigrations reg page toV) := by
  have hmem : m ∈ sortedMigrations reg page toV ↔
      ((collectTemplates page.content).contains m.templateKey = true ∧
        ∃ t ∈ reg.all, t.templateKey = m.templateKey ∧ m.toMigration ∈ t.migrations) ∧
      (if decide (page.savedAtVersion > toV) then m.createdAt < page.savedAtVersion ∧ m.createdAt > toV
       else m.createdAt > page.savedAtVersion ∧ m.createdAt < toV) := by
    simp only [sortedMigrations, sortby, mem_insertionSortBy]
    exact mem_migrationsInWindow reg _ _ _ _ m
  refine ⟨?_, ?_, ?_⟩
  · rw [hmem]
    by_cases hb : page.savedAtVersion > toV <;> simp [hb] <;> tauto
  · intro heq hc
    rw [hmem] at hc
    rcases hc with ⟨-, hw⟩
    by_cases hb : page.savedAtVersion > toV <;> simp [hb] at hw <;> rcases heq with h | h <;> omega
  · intro hfalse hc
    rw [hmem] at hc
    rcases hc with ⟨⟨hkey, -⟩, -⟩
    rw [hfalse] at hkey
    exact Bool.false_ne_true hkey

/-- Witness for C3 at a concrete input: a migration whose createdAt equals the
target version is not selected even though its template is in use. -/
theorem claimC3_selection_witness :
    ({ toMigration := { createdAt := 2, up := id, down := id }, templateKey := "home" : MigrationWithTemplate} ∉
      sortedMigrations
        { pages := [], components := [],
          all := [{ templateKey := "home", migrations := [{ createdAt := 2, up := id, down := id }] }] }
        { templateKey := "home", savedAtVersion := 0, props := [], areas := [] } 2) :=
  (claimC3_selection _ _ 2 _).2.1 (Or.inr rfl)

/-- C4: migrating a page already at the requested version selects no migration,
applies none (the fold runs over the empty list, so processMigration is never
invoked), and returns the page unchanged except for reassigning savedAtVersion
to the same value; hence a second migratePage call to the same version yields
the same result (component.ts:1648-1671). -/
theorem claimC4_idempotence (reg : Registry) (page : PageData) (V : Int) (h : page.savedAtVersion = V) :
    sortedMigrations reg page V = [] ∧
    migratePage reg page V = .ok page ∧
    (migratePage reg page V).bind (fun p => migratePage reg p V) = .ok page := by
  subst h
  have hempty : sortedMigrations reg page page.savedAtVersion = [] := by
    have hfilter : migrationsInWindow reg (collectTemplates page.content) page.savedAtVersion page.savedAtVersion
        (decide (page.savedAtVersion > page.savedAtVersion)) = [] := by
      apply List.filter_eq_nil_iff.mpr
      intro m _
      intro hc
      simp only [gt_iff_lt, lt_irrefl, decide_eq_true_eq] at hc
      rw [if_neg (by simp)] at hc
      simp only [Bool.and_eq_true, decide_eq_true_eq] at hc
      omega
    simp only [sortedMigrations, hfilter, sortby, insertionSortBy]
  have hok : migratePage reg page page.savedAtVersion = .ok page := by
    cases page with
    | mk tk v props areas =>
      simp only [migratePage, hempty]
      rfl
  exact ⟨hempty, hok, by rw [hok]; simpa using hok⟩

/-- Witness for C4: the Scenario A page (savedAtVersion T0 = 0) migrated to T0
comes back identical. -/
theorem claimC4_idempotence_witness :
    migratePage { pages := [], components := [], all := [] }
      { templateKey := "home", savedAtVersion := 0, props := [],
        areas := [("main", [.mk "text" [("body", "hi")] []])] } 0 =
      .ok { templateKey := "home", savedAtVersion := 0, props := [],
            areas := [("main", [.mk "text" [("body", "hi")] []])] } :=
  (claimC4_idempotence _ _ 0 rfl).2.1

/-- The Scenario B migration: renames the field body to content on a text
component (up), and back (down). -/
def renameBodyToContent : ComponentData → ComponentData
  | .mk k props a => .mk k (props.map (fun kv => if kv.1 = "body" then ("content", kv.2) else kv)) a

/-- Inverse of renameBodyToContent. -/
def renameContentToBody : ComponentData → ComponentData
  | .mk k props a => .mk k (props.map (fun kv => if kv.1 = "content" then ("body", kv.2) else kv)) a

/-- Registry for Scenario B: home and text templates, text carrying one
migration created at T1 = 1. -/
def scenarioBReg : Registry where
  pages := []
  components := []
  all := [{ templateKey := "home", migrations := [] },
          { templateKey := "text",
            migrations := [{ createdAt := 1, up := renameBodyToContent, down := renameContentToBody }] }]

/-- The Scenario A/B page: a home page saved at T0 = 0 with one text component
in area main. -/
def scenarioBPage : PageData where
  templateKey := "home"
  savedAtVersion := 0
  props := []
  areas := [("main", [.mk "text" [("body", "hi")] []])]

/-- C2 (code evaluation at the failing input): the Scenario B migration is
selected (the sorted migration list has exactly one element), but migratePage
rejects with a TypeError instead of transforming the tree bottom-up. The
source's processMigration (component.ts:1621-1635) declares
`const newAreas = {}` and executes `newAreas[areaKey].push(...)` without ever
initializing `newAreas[areaKey]`, so the very first child of any non-empty
area makes the member access throw; the documented bottom-up application
(component.ts:1296-1297) never happens for any tree that has a child. -/
theorem claimC2_code_evaluation :
    (sortedMigrations scenarioBReg scenarioBPage 2).length = 1 ∧
    migratePage scenarioBReg scenarioBPage 2 =
      .error (.typeError "Cannot read properties of undefined (reading 'push')") :=
  ⟨rfl, rfl⟩

/-- The hydrated and fetched page root of the pipeline (the state of
pageComponent when line 1601/1604 is reached), given the implementation the
page registry returned for the root template key. -/
def fetchedRoot (reg : Registry) (impl0 : Impl) (page : PageWithAncestors) (em : Bool) : HComponent :=
  (fetchComponent page em (hydrateComponent reg impl0 0 page.data.content "/").1).1

/-- Outcome of the root page's own setContext call at component.ts:1604, which
receives the initial context (headerLevel 1 plus the request headers) and is
invoked unconditionally, outside any try/catch. -/
def rootSetContextOutcome (reg : Registry) (impl0 : Impl) (page : PageWithAncestors) (rh : List (String × String)) (em : Bool) : Except JsError Ctx :=
  let F := fetchedRoot reg impl0 page em
  F.impl.setContext F.path F.props F.fetched (some { headerLevel := 1, requestHeaders := rh }) em

/-- C1 (amended): renderPage settles for every input, and the only errors it
can propagate are (a) the missing-template error when the page registry lacks
the root template key, and (b) an error thrown by the root page's own
setContext call at component.ts:1604, which is the one phase callback not
wrapped in a try/catch (it can only be reached on the html path, i.e. when the
extension is empty or html). Every other fetch/setContext/render/
renderVariation error of any node, root included, is captured per node and
renderPage returns a string. The hydration-invariant error of the constructor
(component.ts:1436) cannot arise from renderPage because hydration starts at a
Page root. -/
theorem claimC1_amended_error_classification (reg : Registry) (rh : List (String × String)) (page : PageWithAncestors) (ext : String) (em : Bool) :
    (∃ s, renderPage reg rh page ext em = .ok s) ∨
    (reg.pages.lookup page.data.templateKey = none ∧
      renderPage reg rh page ext em = .error missingTemplateError) ∨
    (∃ impl0 e, reg.pages.lookup page.data.templateKey = some impl0 ∧
      (ext = "" ∨ ext = "html") ∧
      rootSetContextOutcome reg impl0 page rh em = .error e ∧
      renderPage reg rh page ext em = .error e) := by
  unfold renderPage renderPageT
  match hlook : reg.pages.lookup page.data.templateKey with
  | none => exact Or.inr (Or.inl ⟨rfl, rfl⟩)
  | some impl0 =>
    dsimp only
    by_cases hext : (ext != "" && ext != "html") = true
    · rw [if_pos hext]
      exact Or.inl ⟨_, rfl⟩
    · rw [if_neg hext]
      have hor : ext = "" ∨ ext = "html" := by
        rcases Bool.and_eq_false_iff.mp (Bool.not_eq_true _ ▸ hext) with h | h
        · exact Or.inl (by simpa using h)
        · exact Or.inr (by simpa using h)
      match hsc : (fetchComponent page em (hydrateComponent reg impl0 0 page.data.content "/").1).1.impl.setContext
          (fetchComponent page em (hydrateComponent reg impl0 0 page.data.content "/").1).1.path
          (fetchComponent page em (hydrateComponent reg impl0 0 page.data.content "/").1).1.props
          (fetchComponent page em (hydrateComponent reg impl0 0 page.data.content "/").1).1.fetched
          (some { headerLevel := 1, requestHeaders := rh }) em with
      | .error e =>
        refine Or.inr (Or.inr ⟨impl0, e, rfl, hor, ?_, rfl⟩)
        unfold rootSetContextOutcome fetchedRoot
        exact hsc
      | .ok v => exact Or.inl ⟨_, rfl⟩

/-- Implementation whose setContext throws; everything else succeeds. -/
def badCtxImpl : Impl where
  fetch := fun _ _ _ _ => .ok "F"
  setContext := fun _ _ _ _ _ => .error (.error "ctxboom")
  render := fun _ _ _ _ _ _ _ => .ok "R"
  renderVariation := fun _ _ _ _ _ => .ok "V"

/-- Registry whose only page template is home with a throwing setContext. -/
def c1Reg : Registry where
  pages := [("home", badCtxImpl)]
  components := []
  all := []

/-- A home page with no children. -/
def c1Page : PageWithAncestors where
  id := "p1"
  linkId := "l1"
  path := "/site/page"
  data := { templateKey := "home", savedAtVersion := 0, props := [], areas := [] }
  ancestors := []

/-- C1 (counterexample): the root page's setContext throwing makes renderPage
reject with that error, which is neither the missing-template error nor the
hydration-invariant error — contradicting the claim that those two are the
only exceptions that can propagate and that a throwing root setContext is
contained. -/
theorem claimC1_counterexample :
    renderPage c1Reg [] c1Page "html" false = .error (.error "ctxboom") ∧
    JsError.error "ctxboom" ≠ missingTemplateError ∧
    JsError.error "ctxboom" ≠ .error "Hydration failed, could not map component back to its page." :=
  ⟨rfl, by decide, by decide⟩

/-- ComponentData as it can occur at runtime: the TypeScript interface of this
revision declares areas required (component.ts:1238), but the serialized JSON
that reaches hydration and migration is unchecked at runtime, so the field may
be absent (none). The spec treats an absent areas map as meaning no children. -/
inductive ComponentDataRT : Type where
  | mk (templateKey : String) (props : Props) (areas : Option (List (String × List ComponentDataRT)))

/-- Template key of a runtime serialized component. -/
def ComponentDataRT.templateKey : ComponentDataRT → String
  | .mk k _ _ => k

mutual
/-- collectTemplates (component.ts:1498-1506) on runtime data:
Object.values(component.areas) throws a TypeError when areas is absent
(undefined cannot be converted to an object). -/
def collectTemplatesRT : ComponentDataRT → Except JsError (List String)
  | .mk _ _ none => .error (.typeError "Cannot convert undefined or null to object")
  | .mk k _ (some a) =>
    match collectTemplatesAreasRT a with
    | .ok l => .ok (k :: l)
    | .error e => .error e

/-- collectTemplates on a runtime areas map. -/
def collectTemplatesAreasRT : List (String × List ComponentDataRT) → Except JsError (List String)
  | [] => .ok []
  | (_, l) :: rest =>
    match collectTemplatesListRT l with
    | .error e => .error e
    | .ok l1 =>
      match collectTemplatesAreasRT rest with
      | .error e => .error e
      | .ok l2 => .ok (l1 ++ l2)

/-- collectTemplates on one runtime area's list. -/
def collectTemplatesListRT : List ComponentDataRT → Except JsError (List String)
  | [] => .ok []
  | c :: cs =>
    match collectTemplatesRT c with
    | .error e => .error e
    | .ok l1 =>
      match collectTemplatesListRT cs with
      | .error e => .error e
      | .ok l2 => .ok (l1 ++ l2)
end

mutual
/-- The Component constructor (component.ts:1417-1438) on runtime data:
Object.keys(areas) at line 1420 throws a TypeError when the destructured areas
field is absent. A child whose template key is unregistered is skipped without
its own data ever being inspected, exactly as in the typed model. -/
def hydrateComponentRT (reg : Registry) (impl : Impl) (nid : Nat) (data : ComponentDataRT) (path : String) : Except JsError (HComponent × Nat × List Event) :=
  match data with
  | .mk _ _ none => .error (.typeError "Cannot convert undefined or null to object")
  | .mk tk props (some areas) =>
    match hydrateAreasRT reg nid (nid + 1) path areas with
    | .error e => .error e
    | .ok r => .ok (.mk nid tk impl props path false none none r.1, r.2.1, r.2.2)

/-- Runtime hydration of an areas map. -/
def hydrateAreasRT (reg : Registry) (selfNid counter : Nat) (path : String) : List (String × List ComponentDataRT) → Except JsError (List (String × List HComponent) × Nat × List Event)
  | [] => .ok ([], counter, [])
  | (key, l) :: rest =>
    match hydrateListRT reg selfNid counter path key 0 l with
    | .error e => .error e
    | .ok r1 =>
      match hydrateAreasRT reg selfNid r1.2.1 path rest with
      | .error e => .error e
      | .ok r2 => .ok ((key, r1.1) :: r2.1, r2.2.1, r1.2.2 ++ r2.2.2)

/-- Runtime hydration of one area's list. -/
def hydrateListRT (reg : Registry) (selfNid counter : Nat) (path key : String) (i : Nat) : List ComponentDataRT → Except JsError (List HComponent × Nat × List Event)
  | [] => .ok ([], counter, [])
  | cd :: rest =>
    match reg.components.lookup cd.templateKey with
    | some impl =>
      match hydrateComponentRT reg impl counter cd (path ++ "/" ++ key ++ "/" ++ toString i) with
      | .error e => .error e
      | .ok r1 =>
        match hydrateListRT reg selfNid r1.2.1 path key (i + 1) rest with
        | .error e => .error e
        | .ok r2 => .ok (r1.1 :: r2.1, r2.2.1, r1.2.2 ++ r2.2.2)
    | none =>
      match hydrateListRT reg selfNid counter path key (i + 1) rest with
      | .error e => .error e
      | .ok r2 => .ok (r2.1, r2.2.1, Event.logged selfNid (missingChildMsg cd.templateKey) :: r2.2.2)
end

/-- C9 (counterexample): a serialized node whose areas map is absent makes
both the Component constructor (Object.keys(areas), component.ts:1420) and
migratePage's template collection (Object.values(component.areas),
component.ts:1500) throw a TypeError, contradicting the claim that hydration
and migration treat such a node as having no children and complete without
error. -/
theorem claimC9_counterexample :
    hydrateComponentRT { pages := [], components := [], all := [] } badCtxImpl 0
        (.mk "widget-v9" [] none) "/" =
      .error (.typeError "Cannot convert undefined or null to object") ∧
    collectTemplatesRT (.mk "widget-v9" [] none) =
      .error (.typeError "Cannot convert undefined or null to object") :=
  ⟨rfl, rfl⟩

/-- C9 (amended): a serialized node whose areas map is present but empty is
treated as having no children by both hydration and migration: constructing
the Component yields a node with an empty areas map and no error, and the
in-use template-key collection is exactly the node's own template key, with
nothing below it. A node whose areas map is absent instead makes both throw a
TypeError. -/
theorem claimC9_amended_empty_areas (reg : Registry) (impl : Impl) (nid : Nat) (k : String) (props : Props) (path : String) :
    hydrateComponentRT reg impl nid (.mk k props (some [])) path =
      .ok (.mk nid k impl props path false none none [], nid + 1, []) ∧
    collectTemplatesRT (.mk k props (some [])) = .ok [k] :=
  ⟨rfl, rfl⟩

mutual
/-- logError (component.ts:1440-1443) invoked on the node with object identity
x inside a hydrated tree: sets that node's hadError to true and touches
nothing else. The forwarding half of logError (passError up the parent chain)
is modelled by logErrorRecords below. The model is total: logError performs no
throwing operation on a correctly hydrated tree. -/
def logErrorComponent (x : Nat) : HComponent → HComponent
  | .mk n tk impl props path he f ctx areas =>
    .mk n tk impl props path (if n = x then true else he) f ctx (logErrorAreas x areas)

/-- logErrorComponent over an areas map. -/
def logErrorAreas (x : Nat) : List (String × List HComponent) → List (String × List HComponent)
  | [] => []
  | (k, l) :: rest => (k, logErrorList x l) :: logErrorAreas x rest

/-- logErrorComponent over one area's list. -/
def logErrorList (x : Nat) : List HComponent → List HComponent
  | [] => []
  | c :: cs => logErrorComponent x c :: logErrorList x cs
end

/-- The records produced at the page sink by logError on node x with message
msg: after setting hadError, logError calls this.parent?.passError(e, this.path)
(component.ts:1442); a non-root node's passError re-delegates to its parent
(component.ts:1445-1447), so the error and the originating node's path travel
up the parent chain — which in a correctly hydrated tree always ends at the
Page — and the Page's passError records them via console.warn without
rethrowing (component.ts:1474-1476). The root itself has no parent, so its own
logError produces no record (the optional chain short-circuits). -/
def logErrorRecords (root : HComponent) (x : Nat) (msg : String) : List (String × String) :=
  if x = root.nid then []
  else ((views root).filter (fun v => v.nid == x)).map (fun v => (v.path, msg))

mutual
theorem logErrorComponent_nid (x : Nat) : ∀ c : HComponent, (logErrorComponent x c).nid = c.nid
  | .mk n tk impl props path he f ctx areas => by
    simp [logErrorComponent, HComponent.nid]

theorem logErrorAreas_nid (x : Nat) : ∀ a : List (String × List HComponent),
    (logErrorAreas x a).map (fun p => (p.1, p.2.map HComponent.nid)) = a.map (fun p => (p.1, p.2.map HComponent.nid))
  | [] => by simp [logErrorAreas]
  | (k, l) :: rest => by
    have h1 := logErrorList_nid x l
    have h2 := logErrorAreas_nid x rest
    simp [logErrorAreas, h1, h2]

theorem logErrorList_nid (x : Nat) : ∀ l : List HComponent,
    (logErrorList x l).map HComponent.nid = l.map HComponent.nid
  | [] => by simp [logErrorList]
  | c :: cs => by
    have h1 := logErrorComponent_nid x c
    have h2 := logErrorList_nid x cs
    simp [logErrorList, h1, h2]
end

mutual
theorem logErrorComponent_views (x : Nat) : ∀ c : HComponent,
    views (logErrorComponent x c) =
      (views c).map (fun w => if w.nid = x then { w with hadError := true } else w)
  | .mk n tk impl props path he f ctx areas => by
    have ha := logErrorAreas_views x areas
    have hn := logErrorAreas_nid x areas
    by_cases hx : n = x <;>
      simp [logErrorComponent, views, HComponent.view, hx, ha, hn]

theorem logErrorAreas_views (x : Nat) : ∀ a : List (String × List HComponent),
    viewsAreas (logErrorAreas x a) =
      (viewsAreas a).map (fun w => if w.nid = x then { w with hadError := true } else w)
  | [] => by simp [logErrorAreas, viewsAreas]
  | (k, l) :: rest => by
    have h1 := logErrorList_views x l
    have h2 := logErrorAreas_views x rest
    simp [logErrorAreas, viewsAreas, h1, h2]

theorem logErrorList_views (x : Nat) : ∀ l : List HComponent,
    viewsList (logErrorList x l) =
      (viewsList l).map (fun w => if w.nid = x then { w with hadError := true } else w)
  | [] => by simp [logErrorList, viewsList]
  | c :: cs => by
    have h1 := logErrorComponent_views x c
    have h2 := logErrorList_views x cs
    simp [logErrorList, viewsList, h1, h2]
end

theorem filter_nid_eq_singleton {l : List NodeView} {x : Nat} (h : (l.map NodeView.nid).Nodup)
    {v : NodeView} (hv : v ∈ l) (hx : v.nid = x) : l.filter (fun w => w.nid == x) = [v] := by
  induction l with
  | nil => cases hv
  | cons a t ih =>
    simp only [List.map_cons, List.nodup_cons] at h
    rcases List.mem_cons.mp hv with rfl | hvt
    · have hfilter : t.filter (fun w => w.nid == x) = [] := by
        apply List.filter_eq_nil_iff.mpr
        intro w hw
        simp only [beq_iff_eq]
        intro hwx
        exact h.1 (hx ▸ hwx ▸ List.mem_map_of_mem NodeView.nid hw)
      simp [List.filter_cons, hx, hfilter]
    · have hne : (a.nid == x) = false := by
        simp only [beq_eq_false_iff_ne, ne_eq]
        intro he
        exact h.1 (he ▸ hx ▸ List.mem_map_of_mem NodeView.nid hvt)
      simp only [List.filter_cons, hne]
      exact ih h.2 hvt

/-- C10: calling logError on a non-root node X of a correctly hydrated tree
sets X's hadError to true and leaves every field of every other node
unchanged (stated as an exact transformation of the per-node views); the error
is forwarded with X's path up the parent chain and absorbed by the Page root's
passError sink, which records exactly one (path, message) pair without
rethrowing; the root's own logError produces no sink record because it has no
parent. The model is total, matching the fact that logError cannot throw on a
correctly hydrated tree. -/
theorem claimC10_logError_frame (t : HComponent) (x : Nat) (msg : String)
    (hnd : (nidsOf t).Nodup) (v : NodeView) (hv : v ∈ views t) (hx : v.nid = x) :
    views (logErrorComponent x t) =
      (views t).map (fun w => if w.nid = x then { w with hadError := true } else w) ∧
    (x ≠ t.nid → logErrorRecords t x msg = [(v.path, msg)]) ∧
    (x = t.nid → logErrorRecords t x msg = []) := by
  refine ⟨logErrorComponent_views x t, ?_, ?_⟩
  · intro hne
    have hmap : ((views t).map NodeView.nid).Nodup := by
      rw [views_map_nid]
      exact hnd
    have hfil := filter_nid_eq_singleton hmap hv hx
    simp [logErrorRecords, hne, hfil]
  · intro heq
    simp [logErrorRecords, heq]

/-- Witness for C10 on a concrete two-node tree: logging an error on the child
(nid 1) flips only its hadError and the page sink records the child's path. -/
theorem claimC10_logError_frame_witness :
    views (logErrorComponent 1 (.mk 0 "home" badCtxImpl [] "/" false none none
        [("main", [.mk 1 "text" badCtxImpl [] "//main/0" false none none []])])) =
      (views (.mk 0 "home" badCtxImpl [] "/" false none none
        [("main", [.mk 1 "text" badCtxImpl [] "//main/0" false none none []])])).map
        (fun w => if w.nid = 1 then { w with hadError := true } else w) ∧
    logErrorRecords (.mk 0 "home" badCtxImpl [] "/" false none none
        [("main", [.mk 1 "text" badCtxImpl [] "//main/0" false none none []])]) 1 "boom" =
      [("//main/0", "boom")] := by
  have h := claimC10_logError_frame
    (.mk 0 "home" badCtxImpl [] "/" false none none
      [("main", [.mk 1 "text" badCtxImpl [] "//main/0" false none none []])])
    1 "boom" (by decide)
    ⟨1, "text", "//main/0", [], false, none, none, []⟩ (by decide) rfl
  exact ⟨h.1, h.2.1 (by decide)⟩

mutual
theorem hydrateComponent_events (reg : Registry) (impl : Impl) (nid : Nat) (data : ComponentData) (path : String) :
    ∀ ev ∈ (hydrateComponent reg impl nid data path).2.2, ∃ n m, ev = Event.logged n m := by
  match data with
  | .mk tk props areas =>
    intro ev hev
    simp only [hydrateComponent] at hev
    exact hydrateAreas_events reg nid (nid + 1) path areas ev hev

theorem hydrateAreas_events (reg : Registry) (selfNid counter : Nat) (path : String) (areas : List (String × List ComponentData)) :
    ∀ ev ∈ (hydrateAreas reg selfNid counter path areas).2.2, ∃ n m, ev = Event.logged n m := by
  match areas with
  | [] => intro ev hev; simp [hydrateAreas] at hev
  | (key, l) :: rest =>
    intro ev hev
    simp only [hydrateAreas, List.mem_append] at hev
    rcases hev with hev | hev
    · exact hydrateList_events reg selfNid counter path key 0 l ev hev
    · exact hydrateAreas_events reg selfNid _ path rest ev hev

theorem hydrateList_events (reg : Registry) (selfNid counter : Nat) (path key : String) (i : Nat) (l : List ComponentData) :
    ∀ ev ∈ (hydrateList reg selfNid counter path key i l).2.2, ∃ n m, ev = Event.logged n m := by
  match l with
  | [] => intro ev hev; simp [hydrateList] at hev
  | cd :: rest =>
    intro ev hev
    match hlook : reg.components.lookup cd.templateKey with
    | some impl =>
      simp only [hydrateList, hlook, List.mem_append] at hev
      rcases hev with hev | hev
      · exact hydrateComponent_events reg impl counter cd _ ev hev
      · exact hydrateList_events reg selfNid _ path key (i + 1) rest ev hev
    | none =>
      simp only [hydrateList, hlook, List.mem_cons] at hev
      rcases hev with rfl | hev
      · exact ⟨selfNid, missingChildMsg cd.templateKey, rfl⟩
      · exact hydrateList_events reg selfNid counter path key (i + 1) rest ev hev
end

mutual
theorem fetchComponent_events (pg : PageWithAncestors) (em : Bool) (c : HComponent) :
    ∀ ev ∈ (fetchComponent pg em c).2, (∃ n, ev = Event.fetchCall n) ∨ (∃ n m, ev = Event.logged n m) := by
  match c with
  | .mk n tk impl props path he f ctx areas =>
    intro ev hev
    match hf : impl.fetch pg path props em with
    | .ok v =>
      simp only [fetchComponent, hf, List.mem_cons] at hev
      rcases hev with rfl | hev
      · exact Or.inl ⟨n, rfl⟩
      · exact fetchAreas_events pg em areas ev hev
    | .error e =>
      simp only [fetchComponent, hf, List.mem_cons] at hev
      rcases hev with rfl | rfl | hev
      · exact Or.inl ⟨n, rfl⟩
      · exact Or.inr ⟨n, e.msg, rfl⟩
      · exact fetchAreas_events pg em areas ev hev

theorem fetchAreas_events (pg : PageWithAncestors) (em : Bool) (areas : List (String × List HComponent)) :
    ∀ ev ∈ (fetchAreas pg em areas).2, (∃ n, ev = Event.fetchCall n) ∨ (∃ n m, ev = Event.logged n m) := by
  match areas with
  | [] => intro ev hev; simp [fetchAreas] at hev
  | (k, l) :: rest =>
    intro ev hev
    simp only [fetchAreas, List.mem_append] at hev
    rcases hev with hev | hev
    · exact fetchList_events pg em l ev hev
    · exact fetchAreas_events pg em rest ev hev

theorem fetchList_events (pg : PageWithAncestors) (em : Bool) (l : List HComponent) :
    ∀ ev ∈ (fetchList pg em l).2, (∃ n, ev = Event.fetchCall n) ∨ (∃ n m, ev = Event.logged n m) := by
  match l with
  | [] => intro ev hev; simp [fetchList] at hev
  | c :: cs =>
    intro ev hev
    simp only [fetchList, List.mem_append] at hev
    rcases hev with hev | hev
    · exact fetchComponent_events pg em c ev hev
    · exact fetchList_events pg em cs ev hev
end

mutual
theorem renderVariation_events (ext : String) (c : HComponent) :
    ∀ ev ∈ (renderVariation ext c).2, (∃ n, ev = Event.renderVariationCall n) ∨ (∃ n m, ev = Event.logged n m) := by
  match c with
  | .mk n tk impl props path he f ctx areas =>
    intro ev hev
    by_cases hhe : he = true
    · simp [renderVariation, hhe] at hev
    · simp only [Bool.not_eq_true] at hhe
      match hr : impl.renderVariation path props f ext (renderVariationAreas ext areas).1 with
      | .ok s =>
        simp only [renderVariation, hhe, Bool.false_eq_true, if_false, hr, List.mem_append, List.mem_singleton] at hev
        rcases hev with hev | rfl
        · exact renderVariationAreas_events ext areas ev hev
        · exact Or.inl ⟨n, rfl⟩
      | .error e =>
        simp only [renderVariation, hhe, Bool.false_eq_true, if_false, hr, List.mem_append, List.mem_cons, List.mem_singleton] at hev
        rcases hev with hev | rfl | rfl | h
        · exact renderVariationAreas_events ext areas ev hev
        · exact Or.inl ⟨n, rfl⟩
        · exact Or.inr ⟨n, e.msg, rfl⟩
        · cases h

theorem renderVariationAreas_events (ext : String) (areas : List (String × List HComponent)) :
    ∀ ev ∈ (renderVariationAreas ext areas).2, (∃ n, ev = Event.renderVariationCall n) ∨ (∃ n m, ev = Event.logged n m) := by
  match areas with
  | [] => intro ev hev; simp [renderVariationAreas] at hev
  | (k, l) :: rest =>
    intro ev hev
    simp only [renderVariationAreas, List.mem_append] at hev
    rcases hev with hev | hev
    · exact renderVariationList_events ext l ev hev
    · exact renderVariationAreas_events ext rest ev hev

theorem renderVariationList_events (ext : String) (l : List HComponent) :
    ∀ ev ∈ (renderVariationList ext l).2, (∃ n, ev = Event.renderVariationCall n) ∨ (∃ n m, ev = Event.logged n m) := by
  match l with
  | [] => intro ev hev; simp [renderVariationList] at hev
  | c :: cs =>
    intro ev hev
    simp only [renderVariationList, List.mem_append] at hev
    rcases hev with hev | hev
    · exact renderVariation_events ext c ev hev
    · exact renderVariationList_events ext cs ev hev
end

/-- C8 (amended): for every requested NON-EMPTY extension other than html,
renderPage skips the context and render phases entirely: no setContext
invocation occurs on any node (there is no setContextCall event in the whole
trace), the returned output is exactly the single bottom-up renderVariation
traversal of the fetched tree, and a node carrying a captured error
contributes the empty string without renderVariation being invoked on it or
anything below it. The empty extension does NOT short-circuit: the guard at
component.ts:1601 is extension && extension !== html, so an empty extension is
treated like the standard HTML extension and runs the full pipeline. -/
theorem claimC8_amended_variation (reg : Registry) (rh : List (String × String)) (page : PageWithAncestors) (ext : String) (em : Bool)
    (h1 : ext ≠ "") (h2 : ext ≠ "html") :
    (∀ n arg, Event.setContextCall n arg ∉ (renderPageT reg rh page ext em).2) ∧
    (∀ impl0, reg.pages.lookup page.data.templateKey = some impl0 →
        renderPage reg rh page ext em = .ok (renderVariation ext (fetchedRoot reg impl0 page em)).1) ∧
    (∀ c : HComponent, c.hadError = true → renderVariation ext c = ("", [])) := by
  have hext : (ext != "" && ext != "html") = true := by
    simp [bne_iff_ne, h1, h2]
  refine ⟨?_, ?_, ?_⟩
  · intro n arg hmem
    unfold renderPageT at hmem
    match hlook : reg.pages.lookup page.data.templateKey with
    | none => rw [hlook] at hmem; simp at hmem
    | some impl0 =>
      rw [hlook] at hmem
      simp only [hext, if_true] at hmem
      simp only [List.mem_append] at hmem
      rcases hmem with (hmem | hmem) | hmem
      · rcases hydrateComponent_events reg impl0 0 page.data.content "/" _ hmem with ⟨_, _, h⟩
        cases h
      · rcases fetchComponent_events page em _ _ hmem with ⟨_, h⟩ | ⟨_, _, h⟩ <;> cases h
      · rcases renderVariation_events ext _ _ hmem with ⟨_, h⟩ | ⟨_, _, h⟩ <;> cases h
  · intro impl0 hlook
    unfold renderPage renderPageT
    rw [hlook]
    simp only [hext, if_true]
    rfl
  · intro c hc
    cases c with
    | mk n tk impl props path he f ctx areas =>
      simp only [HComponent.hadError] at hc
      simp [renderVariation, hc]

/-- Registry and page for the C8 scenarios: a home page whose implementation
always succeeds. -/
def okImpl : Impl where
  fetch := fun _ _ _ _ => .ok "F"
  setContext := fun _ _ _ pc _ => .ok { headerLevel := (pc.map Ctx.headerLevel).getD 0 + 1, requestHeaders := [] }
  render := fun p _ _ _ _ ras _ => .ok (p ++ "[" ++ String.join (ras.map Prod.snd).flatten ++ "]")
  renderVariation := fun _ _ _ _ ras => .ok ("v" ++ String.join (ras.map Prod.snd))

/-- One-page registry used by the C8 scenarios. -/
def c8Reg : Registry where
  pages := [("home", okImpl)]
  components := []
  all := []

/-- Childless home page used by the C8 scenarios. -/
def c8Page : PageWithAncestors where
  id := "p8"
  linkId := "l8"
  path := "/p8"
  data := { templateKey := "home", savedAtVersion := 0, props := [], areas := [] }
  ancestors := []

/-- C8 (counterexample): the empty extension is a requested extension other
than html, yet renderPage does not skip the context phase for it — the root's
setContext is invoked (a setContextCall event appears in the trace), because
the guard extension && extension !== html at component.ts:1601 treats the
empty string as falsy. -/
theorem claimC8_counterexample :
    ("" : String) ≠ "html" ∧
    Event.setContextCall 0 (some { headerLevel := 1, requestHeaders := [] }) ∈
      (renderPageT c8Reg [] c8Page "" false).2 :=
  ⟨by decide, by decide⟩

/-- Witness for C8 at the concrete rss extension of Scenario E. -/
theorem claimC8_amended_variation_witness :
    renderPage c8Reg [] c8Page "rss" false =
      .ok (renderVariation "rss" (fetchedRoot c8Reg okImpl c8Page false)).1 :=
  (claimC8_amended_variation c8Reg [] c8Page "rss" false (by decide) (by decide)).2.1 okImpl rfl

mutual
theorem fetchComponent_nids (pg : PageWithAncestors) (em : Bool) (c : HComponent) :
    nidsOf (fetchComponent pg em c).1 = nidsOf c := by
  match c with
  | .mk n tk impl props path he f ctx areas =>
    have h := fetchAreas_nids pg em areas
    match hf : impl.fetch pg path props em with
    | .ok v => simp [fetchComponent, hf, nidsOf, h]
    | .error e => simp [fetchComponent, hf, nidsOf, h]

theorem fetchAreas_nids (pg : PageWithAncestors) (em : Bool) (areas : List (String × List HComponent)) :
    nidsOfAreas (fetchAreas pg em areas).1 = nidsOfAreas areas := by
  match areas with
  | [] => simp [fetchAreas]
  | (k, l) :: rest =>
    have h1 := fetchList_nids pg em l
    have h2 := fetchAreas_nids pg em rest
    simp [fetchAreas, nidsOfAreas, h1, h2]

theorem fetchList_nids (pg : PageWithAncestors) (em : Bool) (l : List HComponent) :
    nidsOfList (fetchList pg em l).1 = nidsOfList l := by
  match l with
  | [] => simp [fetchList]
  | c :: cs =>
    have h1 := fetchComponent_nids pg em c
    have h2 := fetchList_nids pg em cs
    simp [fetchList, nidsOfList, h1, h2]
end

mutual
theorem setContextChild_nids (em : Bool) (pctx : Option Ctx) (c : HComponent) :
    nidsOf (setContextChild em pctx c).1 = nidsOf c := by
  match c with
  | .mk n tk impl props path he f ctx areas =>
    by_cases hhe : he = true
    · have h := setContextAreas_nids em ctx areas
      simp [setContextChild, hhe, nidsOf, h]
    · simp only [Bool.not_eq_true] at hhe
      match hs : impl.setContext path props f pctx em with
      | .ok v =>
        have h := setContextAreas_nids em (some v) areas
        simp [setContextChild, hhe, hs, nidsOf, h]
      | .error e =>
        have h := setContextAreas_nids em ctx areas
        simp [setContextChild, hhe, hs, nidsOf, h]

theorem setContextAreas_nids (em : Bool) (pctx : Option Ctx) (areas : List (String × List HComponent)) :
    nidsOfAreas (setContextAreas em pctx areas).1 = nidsOfAreas areas := by
  match areas with
  | [] => simp [setContextAreas]
  | (k, l) :: rest =>
    have h1 := setContextList_nids em pctx l
    have h2 := setContextAreas_nids em pctx rest
    simp [setContextAreas, nidsOfAreas, h1, h2]

theorem setContextList_nids (em : Bool) (pctx : Option Ctx) (l : List HComponent) :
    nidsOfList (setContextList em pctx l).1 = nidsOfList l := by
  match l with
  | [] => simp [setContextList]
  | c :: cs =>
    have h1 := setContextChild_nids em pctx c
    have h2 := setContextList_nids em pctx cs
    simp [setContextList, nidsOfList, h1, h2]
end

theorem withRootCtx_nids (c : HComponent) (v : Ctx) : nidsOf (withRootCtx c v) = nidsOf c := by
  cases c with
  | mk n tk impl props path he f ctx areas => simp [withRootCtx, nidsOf]

theorem setContextFn_parts (em : Bool) (c : HComponent) :
    (setContextFn em c).2 = (setContextAreas em c.renderCtx c.areas).2 ∧
    nidsOf (setContextFn em c).1 = nidsOf c := by
  cases c with
  | mk n tk impl props path he f ctx areas =>
    have h := setContextAreas_nids em ctx areas
    exact ⟨rfl, by simp [setContextFn, nidsOf, HComponent.renderCtx, HComponent.areas, h]⟩

mutual
theorem setContextChild_event_sources (em : Bool) (pctx : Option Ctx) (c : HComponent) :
    ∀ ev ∈ (setContextChild em pctx c).2,
      (∃ v ∈ views c, v.hadError = false ∧ ∃ arg, ev = Event.setContextCall v.nid arg) ∨
      (∃ n m, ev = Event.logged n m) := by
  match c with
  | .mk n tk impl props path he f ctx areas =>
    intro ev hev
    by_cases hhe : he = true
    · simp only [setContextChild, hhe, if_true] at hev
      rcases setContextAreas_event_sources em ctx areas ev hev with ⟨v, hv, hp⟩ | h
      · exact Or.inl ⟨v, List.mem_cons_of_mem _ hv, hp⟩
      · exact Or.inr h
    · simp only [Bool.not_eq_true] at hhe
      match hs : impl.setContext path props f pctx em with
      | .ok v0 =>
        simp only [setContextChild, hhe, Bool.false_eq_true, if_false, hs, List.mem_cons] at hev
        rcases hev with rfl | hev
        · exact Or.inl ⟨(HComponent.mk n tk impl props path he f ctx areas).view,
            List.mem_cons_self _ _, by simp [HComponent.view, hhe], pctx, by simp [HComponent.view]⟩
        · rcases setContextAreas_event_sources em (some v0) areas ev hev with ⟨v, hv, hp⟩ | h
          · exact Or.inl ⟨v, List.mem_cons_of_mem _ hv, hp⟩
          · exact Or.inr h
      | .error e =>
        simp only [setContextChild, hhe, Bool.false_eq_true, if_false, hs, List.mem_cons] at hev
        rcases hev with rfl | rfl | hev
        · exact Or.inl ⟨(HComponent.mk n tk impl props path he f ctx areas).view,
            List.mem_cons_self _ _, by simp [HComponent.view, hhe], pctx, by simp [HComponent.view]⟩
        · exact Or.inr ⟨n, e.msg, rfl⟩
        · rcases setContextAreas_event_sources em ctx areas ev hev with ⟨v, hv, hp⟩ | h
          · exact Or.inl ⟨v, List.mem_cons_of_mem _ hv, hp⟩
          · exact Or.inr h

theorem setContextAreas_event_sources (em : Bool) (pctx : Option Ctx) (areas : List (String × List HComponent)) :
    ∀ ev ∈ (setContextAreas em pctx areas).2,
      (∃ v ∈ viewsAreas areas, v.hadError = false ∧ ∃ arg, ev = Event.setContextCall v.nid arg) ∨
      (∃ n m, ev = Event.logged n m) := by
  match areas with
  | [] => intro ev hev; simp [setContextAreas] at hev
  | (k, l) :: rest =>
    intro ev hev
    simp only [setContextAreas, List.mem_append] at hev
    rcases hev with hev | hev
    · rcases setContextList_event_sources em pctx l ev hev with ⟨v, hv, hp⟩ | h
      · exact Or.inl ⟨v, by simp only [viewsAreas, List.mem_append]; exact Or.inl hv, hp⟩
      · exact Or.inr h
    · rcases setContextAreas_event_sources em pctx rest ev hev with ⟨v, hv, hp⟩ | h
      · exact Or.inl ⟨v, by simp only [viewsAreas, List.mem_append]; exact Or.inr hv, hp⟩
      · exact Or.inr h

theorem setContextList_event_sources (em : Bool) (pctx : Option Ctx) (l : List HComponent) :
    ∀ ev ∈ (setContextList em pctx l).2,
      (∃ v ∈ viewsList l, v.hadError = false ∧ ∃ arg, ev = Event.setContextCall v.nid arg) ∨
      (∃ n m, ev = Event.logged n m) := by
  match l with
  | [] => intro ev hev; simp [setContextList] at hev
  | c :: cs =>
    intro ev hev
    simp only [setContextList, List.mem_append] at hev
    rcases hev with hev | hev
    · rcases setContextChild_event_sources em pctx c ev hev with ⟨v, hv, hp⟩ | h
      · exact Or.inl ⟨v, by simp only [viewsList, List.mem_append]; exact Or.inl hv, hp⟩
      · exact Or.inr h
    · rcases setContextList_event_sources em pctx cs ev hev with ⟨v, hv, hp⟩ | h
      · exact Or.inl ⟨v, by simp only [viewsList, List.mem_append]; exact Or.inr hv, hp⟩
      · exact Or.inr h
end

mutual
theorem renderComponent_event_sources (em : Bool) (hc : String) (c : HComponent) :
    ∀ ev ∈ (renderComponent em hc c).2,
      (∃ v ∈ views c, v.hadError = false ∧ ev = Event.renderCall v.nid) ∨
      (∃ n m, ev = Event.logged n m) := by
  match c with
  | .mk n tk impl props path he f ctx areas =>
    intro ev hev
    by_cases hhe : he = true
    · simp [renderComponent, hhe] at hev
    · simp only [Bool.not_eq_true] at hhe
      match hr : impl.render path props f ctx hc (renderAreas em hc areas).1 em with
      | .ok s =>
        simp only [renderComponent, hhe, Bool.false_eq_true, if_false, hr, List.mem_append, List.mem_singleton] at hev
        rcases hev with hev | rfl
        · rcases renderAreas_event_sources em hc areas ev hev with ⟨v, hv, hp⟩ | h
          · exact Or.inl ⟨v, List.mem_cons_of_mem _ hv, hp⟩
          · exact Or.inr h
        · exact Or.inl ⟨(HComponent.mk n tk impl props path he f ctx areas).view,
            List.mem_cons_self _ _, by simp [HComponent.view, hhe], by simp [HComponent.view]⟩
      | .error e =>
        simp only [renderComponent, hhe, Bool.false_eq_true, if_false, hr, List.mem_append, List.mem_cons, List.mem_singleton] at hev
        rcases hev with hev | rfl | rfl | h
        · rcases renderAreas_event_sources em hc areas ev hev with ⟨v, hv, hp⟩ | h
          · exact Or.inl ⟨v, List.mem_cons_of_mem _ hv, hp⟩
          · exact Or.inr h
        · exact Or.inl ⟨(HComponent.mk n tk impl props path he f ctx areas).view,
            List.mem_cons_self _ _, by simp [HComponent.view, hhe], by simp [HComponent.view]⟩
        · exact Or.inr ⟨n, e.msg, rfl⟩
        · cases h

theorem renderAreas_event_sources (em : Bool) (hc : String) (areas : List (String × List HComponent)) :
    ∀ ev ∈ (renderAreas em hc areas).2,
      (∃ v ∈ viewsAreas areas, v.hadError = false ∧ ev = Event.renderCall v.nid) ∨
      (∃ n m, ev = Event.logged n m) := by
  match areas with
  | [] => intro ev hev; simp [renderAreas] at hev
  | (k, l) :: rest =>
    intro ev hev
    simp only [renderAreas, List.mem_append] at hev
    rcases hev with hev | hev
    · rcases renderList_event_sources em hc l ev hev with ⟨v, hv, hp⟩ | h
      · exact Or.inl ⟨v, by simp only [viewsAreas, List.mem_append]; exact Or.inl hv, hp⟩
      · exact Or.inr h
    · rcases renderAreas_event_sources em hc rest ev hev with ⟨v, hv, hp⟩ | h
      · exact Or.inl ⟨v, by simp only [viewsAreas, List.mem_append]; exact Or.inr hv, hp⟩
      · exact Or.inr h

theorem renderList_event_sources (em : Bool) (hc : String) (l : List HComponent) :
    ∀ ev ∈ (renderList em hc l).2,
      (∃ v ∈ viewsList l, v.hadError = false ∧ ev = Event.renderCall v.nid) ∨
      (∃ n m, ev = Event.logged n m) := by
  match l with
  | [] => intro ev hev; simp [renderList] at hev
  | c :: cs =>
    intro ev hev
    simp only [renderList, List.mem_append] at hev
    rcases hev with hev | hev
    · rcases renderComponent_event_sources em hc c ev hev with ⟨v, hv, hp⟩ | h
      · exact Or.inl ⟨v, by simp only [viewsList, List.mem_append]; exact Or.inl hv, hp⟩
      · exact Or.inr h
    · rcases renderList_event_sources em hc cs ev hev with ⟨v, hv, hp⟩ | h
      · exact Or.inl ⟨v, by simp only [viewsList, List.mem_append]; exact Or.inr hv, hp⟩
      · exact Or.inr h
end

theorem views_cons (c : HComponent) : views c = c.view :: viewsAreas c.areas := by
  cases c with
  | mk n tk impl props path he f ctx areas => rfl

theorem nidsOf_cons (c : HComponent) : nidsOf c = c.nid :: nidsOfAreas c.areas := by
  cases c with
  | mk n tk impl props path he f ctx areas => rfl

theorem view_nid (c : HComponent) : c.view.nid = c.nid := by
  cases c with
  | mk n tk impl props path he f ctx areas => rfl

theorem withRootCtx_fields (c : HComponent) (v : Ctx) :
    (withRootCtx c v).nid = c.nid ∧ (withRootCtx c v).renderCtx = some v ∧
    (withRootCtx c v).areas = c.areas := by
  cases c with
  | mk n tk impl props path he f ctx areas => exact ⟨rfl, rfl, rfl⟩

theorem fetchedRoot_nids_nodup (reg : Registry) (impl0 : Impl) (page : PageWithAncestors) (em : Bool) :
    (nidsOf (fetchedRoot reg impl0 page em)).Nodup := by
  unfold fetchedRoot
  rw [fetchComponent_nids]
  exact hydrate_nids_nodup reg impl0 0 page.data.content "/"

theorem mem_viewsAreas_of_mem_views_ne_root {c : HComponent} {v : NodeView}
    (hv : v ∈ views c) (hne : v.nid ≠ c.nid) : v ∈ viewsAreas c.areas := by
  rw [views_cons] at hv
  rcases List.mem_cons.mp hv with rfl | h
  · exact absurd (view_nid c) hne
  · exact h

theorem viewsAreas_nid_inj {c : HComponent} (hnd : (nidsOf c).Nodup)
    {v w : NodeView} (hv : v ∈ viewsAreas c.areas) (hw : w ∈ viewsAreas c.areas)
    (hnid : v.nid = w.nid) : v = w := by
  have htail : (nidsOfAreas c.areas).Nodup := by
    rw [nidsOf_cons] at hnd
    exact (List.nodup_cons.mp hnd).2
  have hmap : ((viewsAreas c.areas).map NodeView.nid).Nodup := by
    rw [viewsAreas_map_nid]
    exact htail
  exact List.inj_on_of_nodup_map hmap hv hw hnid

theorem renderPageT_html_trace_err (reg : Registry) (rh : List (String × String)) (page : PageWithAncestors) (em : Bool) (impl0 : Impl) (e : JsError)
    (hlook : reg.pages.lookup page.data.templateKey = some impl0)
    (hsc : rootSetContextOutcome reg impl0 page rh em = .error e) :
    (renderPageT reg rh page "html" em).2 =
      (hydrateComponent reg impl0 0 page.data.content "/").2.2 ++
      (fetchComponent page em (hydrateComponent reg impl0 0 page.data.content "/").1).2 ++
      [Event.setContextCall (fetchedRoot reg impl0 page em).nid (some { headerLevel := 1, requestHeaders := rh })] := by
  unfold rootSetContextOutcome fetchedRoot at hsc
  unfold renderPageT
  rw [hlook]
  dsimp only
  rw [if_neg (by decide)]
  rw [hsc]
  rfl

theorem renderPageT_html_trace_ok (reg : Registry) (rh : List (String × String)) (page : PageWithAncestors) (em : Bool) (impl0 : Impl) (v0 : Ctx)
    (hlook : reg.pages.lookup page.data.templateKey = some impl0)
    (hsc : rootSetContextOutcome reg impl0 page rh em = .ok v0) :
    (renderPageT reg rh page "html" em).2 =
      (hydrateComponent reg impl0 0 page.data.content "/").2.2 ++
      (fetchComponent page em (hydrateComponent reg impl0 0 page.data.content "/").1).2 ++
      (Event.setContextCall (fetchedRoot reg impl0 page em).nid (some { headerLevel := 1, requestHeaders := rh }) ::
        (setContextFn em (withRootCtx (fetchedRoot reg impl0 page em) v0)).2) ++
      (renderComponent em (headContent em (collectComponents (hydrateComponent reg impl0 0 page.data.content "/").1))
        (setContextFn em (withRootCtx (fetchedRoot reg impl0 page em) v0)).1).2 := by
  unfold rootSetContextOutcome fetchedRoot at hsc
  unfold renderPageT
  rw [hlook]
  dsimp only
  rw [if_neg (by decide)]
  rw [hsc]
  rfl

theorem views_nid_inj {c : HComponent} (hnd : (nidsOf c).Nodup) {v w : NodeView}
    (hv : v ∈ views c) (hw : w ∈ views c) (h : v.nid = w.nid) : v = w := by
  have hmap : ((views c).map NodeView.nid).Nodup := by
    rw [views_map_nid]
    exact hnd
  exact List.inj_on_of_nodup_map hmap hv hw h

/-- C6 (amended): during the html pipeline, (1) a NON-ROOT node that carries a
captured error when the context phase reaches it never has setContext invoked
on it (no setContextCall event with its id anywhere in the whole trace);
(2) a node that carries a captured error when the render phase reaches it
never has render invoked on it; (3) such a node's rendered contribution is the
empty string and its whole subtree produces no render events; (4) an errored
node's renderCtx is left untouched by the context phase and its children are
recursed with that unchanged (undefined) value, so they never receive new
context from it; BUT (5) the ROOT page's own setContext at component.ts:1604
is invoked unconditionally — a setContextCall event for the root is always in
the trace, even when the root itself carries a captured fetch error, which is
the one exception to the claim as stated. -/
theorem claimC6_amended_hadError_exclusion :
    (∀ (reg : Registry) (rh : List (String × String)) (page : PageWithAncestors) (em : Bool) (impl0 : Impl),
      reg.pages.lookup page.data.templateKey = some impl0 →
      ∀ v ∈ views (fetchedRoot reg impl0 page em), v.hadError = true →
      v.nid ≠ (fetchedRoot reg impl0 page em).nid →
      ∀ arg, Event.setContextCall v.nid arg ∉ (renderPageT reg rh page "html" em).2) ∧
    (∀ (reg : Registry) (rh : List (String × String)) (page : PageWithAncestors) (em : Bool) (impl0 : Impl) (v0 : Ctx),
      reg.pages.lookup page.data.templateKey = some impl0 →
      rootSetContextOutcome reg impl0 page rh em = .ok v0 →
      ∀ v ∈ views ((setContextFn em (withRootCtx (fetchedRoot reg impl0 page em) v0)).1), v.hadError = true →
      Event.renderCall v.nid ∉ (renderPageT reg rh page "html" em).2) ∧
    (∀ (em : Bool) (hc : String) (c : HComponent), c.hadError = true →
      renderComponent em hc c = ("", [])) ∧
    (∀ (em : Bool) (pctx : Option Ctx) (c : HComponent), c.hadError = true →
      (setContextChild em pctx c).1.renderCtx = c.renderCtx ∧
      (setContextChild em pctx c).2 = (setContextAreas em c.renderCtx c.areas).2) ∧
    (∀ (reg : Registry) (rh : List (String × String)) (page : PageWithAncestors) (em : Bool) (impl0 : Impl),
      reg.pages.lookup page.data.templateKey = some impl0 →
      Event.setContextCall (fetchedRoot reg impl0 page em).nid
          (some { headerLevel := 1, requestHeaders := rh }) ∈
        (renderPageT reg rh page "html" em).2) := by
  refine ⟨?_, ?_, ?_, ?_, ?_⟩
  · intro reg rh page em impl0 hlook v hv hhe hroot arg hmem
    have hnodup := fetchedRoot_nids_nodup reg impl0 page em
    match hsc : rootSetContextOutcome reg impl0 page rh em with
    | .error e =>
      rw [renderPageT_html_trace_err reg rh page em impl0 e hlook hsc] at hmem
      simp only [List.mem_append, List.mem_singleton] at hmem
      rcases hmem with (hmem | hmem) | hmem
      · rcases hydrateComponent_events reg impl0 0 page.data.content "/" _ hmem with ⟨n, m, h⟩
        exact Event.noConfusion h
      · rcases fetchComponent_events page em _ _ hmem with ⟨n, h⟩ | ⟨n, m, h⟩ <;> exact Event.noConfusion h
      · injection hmem with h1 h2
        exact hroot h1
    | .ok v0 =>
      rw [renderPageT_html_trace_ok reg rh page em impl0 v0 hlook hsc] at hmem
      simp only [List.mem_append, List.mem_cons] at hmem
      rcases hmem with ((hmem | hmem) | hmem | hmem) | hmem
      · rcases hydrateComponent_events reg impl0 0 page.data.content "/" _ hmem with ⟨n, m, h⟩
        exact Event.noConfusion h
      · rcases fetchComponent_events page em _ _ hmem with ⟨n, h⟩ | ⟨n, m, h⟩ <;> exact Event.noConfusion h
      · injection hmem with h1 h2
        exact hroot h1
      · rw [(setContextFn_parts em (withRootCtx (fetchedRoot reg impl0 page em) v0)).1,
            (withRootCtx_fields (fetchedRoot reg impl0 page em) v0).2.1,
            (withRootCtx_fields (fetchedRoot reg impl0 page em) v0).2.2] at hmem
        rcases setContextAreas_event_sources em (some v0) (fetchedRoot reg impl0 page em).areas _ hmem with
          ⟨w, hw, hwfalse, arg2, heq⟩ | ⟨n, m, h⟩
        · injection heq with h1 h2
          have hvin := mem_viewsAreas_of_mem_views_ne_root hv hroot
          have := viewsAreas_nid_inj hnodup hvin hw h1
          rw [this, hwfalse] at hhe
          exact Bool.false_ne_true hhe
        · exact Event.noConfusion h
      · rcases renderComponent_event_sources em _ _ _ hmem with ⟨w, hw, hwfalse, h⟩ | ⟨n, m, h⟩ <;>
          exact Event.noConfusion h
  · intro reg rh page em impl0 v0 hlook hsc v hv hhe hmem
    have hnodup : (nidsOf ((setContextFn em (withRootCtx (fetchedRoot reg impl0 page em) v0)).1)).Nodup := by
      rw [(setContextFn_parts em (withRootCtx (fetchedRoot reg impl0 page em) v0)).2,
          withRootCtx_nids]
      exact fetchedRoot_nids_nodup reg impl0 page em
    rw [renderPageT_html_trace_ok reg rh page em impl0 v0 hlook hsc] at hmem
    simp only [List.mem_append, List.mem_cons] at hmem
    rcases hmem with ((hmem | hmem) | hmem | hmem) | hmem
    · rcases hydrateComponent_events reg impl0 0 page.data.content "/" _ hmem with ⟨n, m, h⟩
      exact Event.noConfusion h
    · rcases fetchComponent_events page em _ _ hmem with ⟨n, h⟩ | ⟨n, m, h⟩ <;> exact Event.noConfusion h
    · exact Event.noConfusion hmem
    · rw [(setContextFn_parts em (withRootCtx (fetchedRoot reg impl0 page em) v0)).1] at hmem
      rcases setContextAreas_event_sources em _ _ _ hmem with ⟨w, hw, hwfalse, arg2, h⟩ | ⟨n, m, h⟩ <;>
        exact Event.noConfusion h
    · rcases renderComponent_event_sources em _ _ _ hmem with ⟨w, hw, hwfalse, h⟩ | ⟨n, m, h⟩
      · injection h with h1
        have := views_nid_inj hnodup hv hw h1
        rw [this, hwfalse] at hhe
        exact Bool.false_ne_true hhe
      · exact Event.noConfusion h
  · intro em hc c hce
    cases c with
    | mk n tk impl props path he f ctx areas =>
      simp only [HComponent.hadError] at hce
      simp [renderComponent, hce]
  · intro em pctx c hce
    cases c with
    | mk n tk impl props path he f ctx areas =>
      simp only [HComponent.hadError] at hce
      exact ⟨by simp [setContextChild, hce, HComponent.renderCtx],
             by simp [setContextChild, hce, HComponent.renderCtx, HComponent.areas]⟩
  · intro reg rh page em impl0 hlook
    match hsc : rootSetContextOutcome reg impl0 page rh em with
    | .error e =>
      rw [renderPageT_html_trace_err reg rh page em impl0 e hlook hsc]
      simp
    | .ok v0 =>
      rw [renderPageT_html_trace_ok reg rh page em impl0 v0 hlook hsc]
      simp

/-- Implementation whose fetch throws; everything else succeeds. -/
def badFetchImpl : Impl where
  fetch := fun _ _ _ _ => .error (.error "fetchboom")
  setContext := fun _ _ _ _ _ => .ok { headerLevel := 5, requestHeaders := [] }
  render := fun _ _ _ _ _ _ _ => .ok "R"
  renderVariation := fun _ _ _ _ _ => .ok "V"

/-- Registry whose home page implementation has a throwing fetch. -/
def c6Reg : Registry where
  pages := [("home", badFetchImpl)]
  components := []
  all := []

/-- Childless home page used by the C6 counterexample. -/
def c6Page : PageWithAncestors where
  id := "p6"
  linkId := "l6"
  path := "/p6"
  data := { templateKey := "home", savedAtVersion := 0, props := [], areas := [] }
  ancestors := []

/-- C6 (counterexample): when the root page's fetch throws, the root carries
hadError = true when the context phase reaches it, yet its setContext is still
invoked (the call at component.ts:1604 has no hadError guard), contradicting
the claim that a node with hadError never has setContext invoked on it. -/
theorem claimC6_counterexample :
    (fetchedRoot c6Reg badFetchImpl c6Page false).hadError = true ∧
    Event.setContextCall (fetchedRoot c6Reg badFetchImpl c6Page false).nid
        (some { headerLevel := 1, requestHeaders := [] }) ∈
      (renderPageT c6Reg [] c6Page "html" false).2 :=
  ⟨rfl, by decide⟩

/-- Registry for the C6 witness: a sound home page with one component whose
fetch throws. -/
def c6wReg : Registry where
  pages := [("home", okImpl)]
  components := [("a", badFetchImpl)]
  all := []

/-- Page for the C6 witness: home with one child of template a in area main. -/
def c6wPage : PageWithAncestors where
  id := "p6w"
  linkId := "l6w"
  path := "/p6w"
  data := { templateKey := "home", savedAtVersion := 0, props := [],
            areas := [("main", [.mk "a" [] []])] }
  ancestors := []

/-- Witness for C6 (amended) at a concrete input: the child node (nid 1) whose
fetch threw is never given a setContext invocation during the html pipeline. -/
theorem claimC6_amended_hadError_exclusion_witness :
    Event.setContextCall 1 none ∉ (renderPageT c6wReg [] c6wPage "html" false).2 :=
  claimC6_amended_hadError_exclusion.1 c6wReg [] c6wPage false okImpl rfl
    ⟨1, "a", "//main/0", [], true, none, none, []⟩ (by decide) rfl (by decide) none

theorem setContextList_trace_decomp (em : Bool) (pctx : Option Ctx) {c : HComponent} {l : List HComponent}
    (hc : c ∈ l) : ∃ t1 t2, (setContextList em pctx l).2 = t1 ++ (setContextChild em pctx c).2 ++ t2 := by
  induction l with
  | nil => cases hc
  | cons a t ih =>
    rcases List.mem_cons.mp hc with rfl | hct
    · exact ⟨[], (setContextList em pctx t).2, by simp [setContextList]⟩
    · rcases ih hct with ⟨t1, t2, h⟩
      exact ⟨(setContextChild em pctx a).2 ++ t1, t2, by simp [setContextList, h]⟩

theorem setContextAreas_trace_decomp (em : Bool) (pctx : Option Ctx) {c : HComponent}
    {areas : List (String × List HComponent)} (hc : c ∈ (areas.map Prod.snd).flatten) :
    ∃ t1 t2, (setContextAreas em pctx areas).2 = t1 ++ (setContextChild em pctx c).2 ++ t2 := by
  induction areas with
  | nil => simp at hc
  | cons a rest ih =>
    obtain ⟨k, l⟩ := a
    simp only [List.map_cons, List.flatten_cons, List.mem_append] at hc
    rcases hc with hc | hc
    · rcases setContextList_trace_decomp em pctx hc with ⟨t1, t2, h⟩
      exact ⟨t1, t2 ++ (setContextAreas em pctx rest).2, by simp [setContextAreas, h]⟩
    · rcases ih hc with ⟨t1, t2, h⟩
      exact ⟨(setContextList em pctx l).2 ++ t1, t2, by simp [setContextAreas, h]⟩

theorem setContextChild_trace_head (em : Bool) (pctx : Option Ctx) {c : HComponent}
    (hhe : c.hadError = false) :
    ∃ rest, (setContextChild em pctx c).2 = Event.setContextCall c.nid pctx :: rest := by
  cases c with
  | mk n tk impl props path he f ctx areas =>
    simp only [HComponent.hadError] at hhe
    match hs : impl.setContext path props f pctx em with
    | .ok v =>
      exact ⟨(setContextAreas em (some v) areas).2,
        by simp [setContextChild, hhe, hs, HComponent.nid]⟩
    | .error e =>
      exact ⟨Event.logged n e.msg :: (setContextAreas em ctx areas).2,
        by simp [setContextChild, hhe, hs, HComponent.nid]⟩

theorem setContextChild_trace_ok (em : Bool) (pctx : Option Ctx) {c : HComponent} {v : Ctx}
    (hhe : c.hadError = false)
    (hs : c.impl.setContext c.path c.props c.fetched pctx em = .ok v) :
    (setContextChild em pctx c).2 =
      Event.setContextCall c.nid pctx :: (setContextAreas em (some v) c.areas).2 := by
  cases c with
  | mk n tk impl props path he f ctx areas =>
    simp only [HComponent.hadError] at hhe
    simp only [HComponent.impl, HComponent.path, HComponent.props, HComponent.fetched] at hs
    simp [setContextChild, hhe, hs, HComponent.nid, HComponent.areas]

/-- C5 (amended): in the context phase of the html pipeline, for a chain
root -> A -> B in which A's own setContext was actually invoked and settled
successfully with value vA (that is, A carried no captured error and its
setContext returned vA), B's setContext invocation appears in the trace
strictly after A's, and the argument B receives is exactly A's resolved
renderCtx vA — a defined value produced by A, not the root's context. The
amendment restricts the claim to chains whose middle node resolved a context:
when A carries a captured error or its setContext throws, A's renderCtx stays
undefined and B's setContext is invoked with undefined (see the C5
counterexample). -/
theorem claimC5_amended_context_chain (reg : Registry) (rh : List (String × String)) (page : PageWithAncestors) (em : Bool)
    (impl0 : Impl) (v0 vA : Ctx) (A B : HComponent)
    (hlook : reg.pages.lookup page.data.templateKey = some impl0)
    (hsc : rootSetContextOutcome reg impl0 page rh em = .ok v0)
    (hA : A ∈ (fetchedRoot reg impl0 page em).children)
    (hAe : A.hadError = false)
    (hAs : A.impl.setContext A.path A.props A.fetched (some v0) em = .ok vA)
    (hB : B ∈ A.children)
    (hBe : B.hadError = false) :
    ∃ t1 t2 t3, (renderPageT reg rh page "html" em).2 =
      t1 ++ Event.setContextCall A.nid (some v0) :: (t2 ++ Event.setContextCall B.nid (some vA) :: t3) := by
  rw [renderPageT_html_trace_ok reg rh page em impl0 v0 hlook hsc]
  rw [(setContextFn_parts em (withRootCtx (fetchedRoot reg impl0 page em) v0)).1,
      (withRootCtx_fields (fetchedRoot reg impl0 page em) v0).2.1,
      (withRootCtx_fields (fetchedRoot reg impl0 page em) v0).2.2]
  simp only [HComponent.children] at hA hB
  rcases setContextAreas_trace_decomp em (some v0) hA with ⟨u1, u2, hdec⟩
  rw [setContextChild_trace_ok em (some v0) hAe hAs] at hdec
  rcases setContextAreas_trace_decomp em (some vA) hB with ⟨w1, w2, hdec2⟩
  rcases setContextChild_trace_head em (some vA) hBe with ⟨rest, hhead⟩
  rw [hhead] at hdec2
  rw [hdec2] at hdec
  rw [hdec]
  refine ⟨(hydrateComponent reg impl0 0 page.data.content "/").2.2 ++
      (fetchComponent page em (hydrateComponent reg impl0 0 page.data.content "/").1).2 ++
      (Event.setContextCall (fetchedRoot reg impl0 page em).nid
        (some { headerLevel := 1, requestHeaders := rh }) :: u1), w1,
      rest ++ w2 ++ u2 ++
        (renderComponent em (headContent em (collectComponents (hydrateComponent reg impl0 0 page.data.content "/").1))
          (setContextFn em (withRootCtx (fetchedRoot reg impl0 page em) v0)).1).2, ?_⟩
  simp [List.append_assoc]

/-- Registry for the C5 counterexample: home, a component a with a throwing
fetch, and a sound component b. -/
def c5Reg : Registry where
  pages := [("home", okImpl)]
  components := [("a", badFetchImpl), ("b", okImpl)]
  all := []

/-- Page for the C5 counterexample: the chain root -> a -> b. -/
def c5Page : PageWithAncestors where
  id := "p5"
  linkId := "l5"
  path := "/p5"
  data := { templateKey := "home", savedAtVersion := 0, props := [],
            areas := [("main", [.mk "a" [] [("sub", [.mk "b" [] []])]])] }
  ancestors := []

/-- C5 (counterexample): in the chain root -> A -> B where A's fetch threw, the
context phase still recurses through A and invokes B's setContext with A's
renderCtx, which is undefined (none) — contradicting the claim that the
argument B receives is never an undefined value. B here is the node with id 2
(root is 0, A is 1). -/
theorem claimC5_counterexample :
    Event.setContextCall 2 none ∈ (renderPageT c5Reg [] c5Page "html" false).2 := by
  decide

/-- Registry for the C5 witness: all implementations sound. -/
def c5wReg : Registry where
  pages := [("home", okImpl)]
  components := [("a", okImpl), ("b", okImpl)]
  all := []

/-- Page for the C5 witness: the chain root -> a -> b. -/
def c5wPage : PageWithAncestors where
  id := "p5w"
  linkId := "l5w"
  path := "/p5w"
  data := { templateKey := "home", savedAtVersion := 0, props := [],
            areas := [("main", [.mk "a" [] [("sub", [.mk "b" [] []])]])] }
  ancestors := []

/-- The hydrated and fetched node B of the C5 witness chain. -/
def c5wB : HComponent := .mk 2 "b" okImpl [] "//main/0/sub/0" false (some "F") none []

/-- The hydrated and fetched node A of the C5 witness chain. -/
def c5wA : HComponent := .mk 1 "a" okImpl [] "//main/0" false (some "F") none [("sub", [c5wB])]

/-- Witness for C5 (amended) on a concrete chain: A receives the root's
resolved context (headerLevel 2), B receives A's resolved context (headerLevel
3), and B's invocation appears after A's in the trace. -/
theorem claimC5_amended_context_chain_witness :
    ∃ t1 t2 t3, (renderPageT c5wReg [] c5wPage "html" false).2 =
      t1 ++ Event.setContextCall 1 (some { headerLevel := 2, requestHeaders := [] }) ::
        (t2 ++ Event.setContextCall 2 (some { headerLevel := 3, requestHeaders := [] }) :: t3) :=
  claimC5_amended_context_chain c5wReg [] c5wPage false okImpl
    { headerLevel := 2, requestHeaders := [] } { headerLevel := 3, requestHeaders := [] }
    c5wA c5wB rfl rfl
    (by rw [show (fetchedRoot c5wReg okImpl c5wPage false).children = [c5wA] from rfl]
        exact List.mem_singleton_self _)
    rfl rfl
    (by rw [show c5wA.children = [c5wB] from rfl]
        exact List.mem_singleton_self _)
    rfl

theorem hydrateComponent_key_path (reg : Registry) (impl : Impl) (nid : Nat) (data : ComponentData) (path : String) :
    (hydrateComponent reg impl nid data path).1.templateKey = data.templateKey ∧
    (hydrateComponent reg impl nid data path).1.path = path := by
  cases data with
  | mk tk props areas => exact ⟨rfl, rfl⟩

/-- C7: hydratePage throws the missing-template error exactly when the page
registry has no implementation for the root template key, and otherwise
returns the hydrated page; during hydration of an area's child list, the
hydrated children are exactly the children whose template key has a registered
component implementation, in their original relative order and with their
original indices in their paths (an unregistered child is omitted, consuming
its index), and for every omitted child one missing-template error is recorded
against the hydrating parent via its logError. -/
theorem claimC7_hydration (reg : Registry) :
    (∀ page : PageWithAncestors,
      (hydratePage reg page = .error missingTemplateError ↔
        reg.pages.lookup page.data.templateKey = none) ∧
      (∀ impl0, reg.pages.lookup page.data.templateKey = some impl0 →
        hydratePage reg page = .ok (hydrateComponent reg impl0 0 page.data.content "/"))) ∧
    (∀ (selfNid counter : Nat) (path key : String) (i : Nat) (l : List ComponentData),
      ((hydrateList reg selfNid counter path key i l).1.map (fun h => (h.templateKey, h.path)) =
        ((l.enumFrom i).filter (fun p => (reg.components.lookup p.2.templateKey).isSome)).map
          (fun p => (p.2.templateKey, path ++ "/" ++ key ++ "/" ++ toString p.1))) ∧
      (∀ cd ∈ l, reg.components.lookup cd.templateKey = none →
        Event.logged selfNid (missingChildMsg cd.templateKey) ∈
          (hydrateList reg selfNid counter path key i l).2.2)) := by
  constructor
  · intro page
    constructor
    · match hlook : reg.pages.lookup page.data.templateKey with
      | none => simp [hydratePage, hlook]
      | some impl0 => simp [hydratePage, hlook]
    · intro impl0 hlook
      simp [hydratePage, hlook]
  · intro selfNid counter path key i l
    induction l generalizing counter i with
    | nil => exact ⟨by simp [hydrateList, List.enumFrom], by simp⟩
    | cons cd rest ih =>
      constructor
      · match hlook : reg.components.lookup cd.templateKey with
        | some impl =>
          have hkp := hydrateComponent_key_path reg impl counter cd (path ++ "/" ++ key ++ "/" ++ toString i)
          have := (ih (hydrateComponent reg impl counter cd (path ++ "/" ++ key ++ "/" ++ toString i)).2.1 (i + 1)).1
          simp [hydrateList, hlook, List.enumFrom, hkp.1, hkp.2, this]
        | none =>
          have := (ih counter (i + 1)).1
          simp [hydrateList, hlook, List.enumFrom, this]
      · intro cd2 hcd2 hnone
        match hlook : reg.components.lookup cd.templateKey with
        | some impl =>
          rcases List.mem_cons.mp hcd2 with rfl | hrest
          · rw [hlook] at hnone
            cases hnone
          · have := (ih (hydrateComponent reg impl counter cd (path ++ "/" ++ key ++ "/" ++ toString i)).2.1 (i + 1)).2 cd2 hrest hnone
            simp only [hydrateList, hlook, List.mem_append]
            exact Or.inr this
        | none =>
          rcases List.mem_cons.mp hcd2 with rfl | hrest
          · simp [hydrateList, hlook]
          · have := (ih counter (i + 1)).2 cd2 hrest hnone
            simp only [hydrateList, hlook, List.mem_cons]
            exact Or.inr this

/-- Registry for the C7 witness: home page implementation plus a component b,
with widget-v9 unregistered (Scenario C). -/
def c7Reg : Registry where
  pages := [("home", okImpl)]
  components := [("b", okImpl)]
  all := []

/-- Witness for C7 at a concrete input: hydrating the area list containing an
unregistered widget-v9 child records a missing-template error against the
parent, and hydrating a page whose root key is registered succeeds. -/
theorem claimC7_hydration_witness :
    Event.logged 0 (missingChildMsg "widget-v9") ∈
      (hydrateList c7Reg 0 1 "/" "main" 0 [.mk "widget-v9" [] [], .mk "b" [] []]).2.2 :=
  ((claimC7_hydration c7Reg).2 0 1 "/" "main" 0 [.mk "widget-v9" [] [], .mk "b" [] []]).2
    (.mk "widget-v9" [] []) (List.mem_cons_self _ _) rfl
